import Mathlib

/-!
Rights and sharing in the to-do-list server.

A shallow embedding of

* `pkg/models/kanban_rights.go`: the capability gate of buckets
  (`Bucket.CanCreate`, `Bucket.CanUpdate`, `Bucket.CanDelete`, `Bucket.canDoBucket`);
* `pkg/models/list_team.go`: the team <-> list sharing relation
  (`TeamList.Create`, `TeamList.Delete`, `TeamList.Update`);
* `models/user_add_update.go`: `CreateUser`, `hashPassword`, `UpdateUser`;
* `pkg/routes/api/v1/caldav.go`: the handler `Caldav`.

Go's `(bool, error)` is `Bool × Option Error`, a returned `error` is `Option Error`
(`none` is `nil`).  Functions the files call but do not define are parameters
(`RightsDeps`, `Helpers`, `UserDeps`, `CaldavDeps`).  Every call that reaches the store is appended to a trace,
so that "is never evaluated" and "before any store access" are statements about the
trace.
-/

namespace Vikunja

/-! ## Shared vocabulary -/

/-- Errors returned by the embedded functions.  The three named ones are built in the
embedded files; `external` stands for any error produced by a collaborator that the
files only call (lookups, the database engine). -/
inductive Error where
  | ErrInvalidRight (right : Int)
  | ErrTeamAlreadyHasAccess (teamID listID : Int)
  | ErrTeamDoesNotHaveAccessToList (teamID listID : Int)
  | external (text : String)
deriving DecidableEq, Repr

/-- The interface `web.Auth`: the actor on whose behalf a check is made. -/
structure Auth where
  ID : Int
deriving DecidableEq, Repr

/-! ## `kanban_rights.go` -/

/-- The fields of `Project` that `kanban_rights.go` sets: `Project{ID: ...}`. -/
structure Project where
  ID : Int
deriving DecidableEq, Repr

/-- The fields of `Bucket` that `kanban_rights.go` reads. -/
structure Bucket where
  ID : Int
  ProjectID : Int
deriving DecidableEq, Repr

/-- The calls a bucket check can make on the session. -/
inductive RightsCall where
  | getBucketByID (id : Int)
  | CanWrite (projectID : Int) (a : Auth)
deriving DecidableEq, Repr

/-- The `*xorm.Session` a check runs in: the stored data it reads and the calls made on
it so far, oldest first. -/
structure Session (σ : Type) where
  data : σ
  trace : List RightsCall
deriving DecidableEq, Repr

/-- The two functions `kanban_rights.go` calls and does not define.  Both read the
session's data. -/
structure RightsDeps (σ : Type) where
  getBucketByID : σ → Int → Except Error Bucket
  CanWrite : σ → Project → Auth → Bool × Option Error

section Kanban
variable {σ : Type}

/-- The call `getBucketByID(s, id)`. -/
def getBucketByID (d : RightsDeps σ) (s : Session σ) (id : Int) :
    Except Error Bucket × Session σ :=
  (d.getBucketByID s.data id, { s with trace := s.trace ++ [RightsCall.getBucketByID id] })

/-- The call `l.CanWrite(s, a)`. -/
def Project.CanWrite (d : RightsDeps σ) (l : Project) (s : Session σ) (a : Auth) :
    (Bool × Option Error) × Session σ :=
  (d.CanWrite s.data l a, { s with trace := s.trace ++ [RightsCall.CanWrite l.ID a] })

/-- CanCreate checks if a user can create a new bucket. -/
def Bucket.CanCreate (d : RightsDeps σ) (b : Bucket) (s : Session σ) (a : Auth) :
    (Bool × Option Error) × Session σ :=
  let l : Project := { ID := b.ProjectID }
  Project.CanWrite d l s a

/-- The method canDoBucket checks if the bucket exists and if the user has the right to
act on it. -/
def Bucket.canDoBucket (d : RightsDeps σ) (b : Bucket) (s : Session σ) (a : Auth) :
    (Bool × Option Error) × Session σ :=
  match getBucketByID d s b.ID with
  | (Except.error err, s1) => ((false, some err), s1)
  | (Except.ok bb, s1) =>
    let l : Project := { ID := bb.ProjectID }
    Project.CanWrite d l s1 a

/-- CanUpdate checks if a user can update an existing bucket. -/
def Bucket.CanUpdate (d : RightsDeps σ) (b : Bucket) (s : Session σ) (a : Auth) :
    (Bool × Option Error) × Session σ :=
  Bucket.canDoBucket d b s a

/-- CanDelete checks if a user can delete an existing bucket. -/
def Bucket.CanDelete (d : RightsDeps σ) (b : Bucket) (s : Session σ) (a : Auth) :
    (Bool × Option Error) × Session σ :=
  Bucket.canDoBucket d b s a

end Kanban

/-! ## `list_team.go` -/

/-- The type `Right`: 0 = Read only, 1 = Read & Write, 2 = Admin. -/
abbrev Right := Int

/-- Read only. -/
def RightRead : Right := 0
/-- Read & Write. -/
def RightWrite : Right := 1
/-- Admin. -/
def RightAdmin : Right := 2

/-- Modelled from the spec: `Right.isValid` is called by `list_team.go` and defined
elsewhere.  The spec's `Validate` fails with `InvalidRight` when the value is outside
the enumerated set Read, ReadWrite, Admin, and succeeds otherwise. -/
def Right.isValid (r : Right) : Option Error :=
  if r ≠ RightAdmin ∧ r ≠ RightRead ∧ r ≠ RightWrite then some (Error.ErrInvalidRight r)
  else none

/-- TeamList defines the relation between a team and a list: a row of `team_list`. -/
structure TeamList where
  ID : Int
  TeamID : Int
  ListID : Int
  Right : Right
  Created : Int
  Updated : Int
deriving DecidableEq, Repr

/-- The calls `list_team.go` makes that reach the store, in the order of the file. -/
inductive StoreCall where
  | GetTeamByID (id : Int)
  | GetSimpleByID (listID : Int)
  | Get (teamID listID : Int)
  | Insert (tl : TeamList)
  | Delete (teamID listID : Int)
  | Update (tl : TeamList)
  | updateListLastUpdated
deriving DecidableEq, Repr

/-- The store behind the engine `x`.  `teams` is whatever `GetTeamByID` reads and
`lists` is the table of lists, both kept abstract; `team_list` holds the rows of the
relation in insertion order.  `faults` schedules the outcome of the next statements the
engine runs on `team_list` (`some e`: the statement fails with `e` and changes nothing;
an exhausted schedule means success), and `trace` records the calls made so far. -/
structure Store (TeamsTbl ListsTbl : Type) where
  teams : TeamsTbl
  lists : ListsTbl
  team_list : List TeamList
  faults : List (Option Error)
  trace : List StoreCall
deriving DecidableEq, Repr

/-- The functions `list_team.go` calls and does not define.  `ListRec` is the struct
`List` and `newList id` the literal `List{ID: id}`.  `GetTeamByID` reads the teams,
`GetSimpleByID` loads the list named by its receiver, `updateListLastUpdated` writes
the table of lists. -/
structure Helpers (TeamsTbl ListsTbl ListRec Team : Type) where
  newList : Int → ListRec
  GetTeamByID : TeamsTbl → Int → Except Error Team
  GetSimpleByID : ListsTbl → ListRec → Except Error ListRec
  updateListLastUpdated : ListsTbl → ListRec → ListsTbl × Option Error

section ListTeam
variable {TeamsTbl ListsTbl ListRec Team : Type}

/-- The condition `team_id = ? AND list_id = ?` on a row. -/
def TeamList.matches (teamID listID : Int) (r : TeamList) : Bool :=
  r.TeamID == teamID && r.ListID == listID

/-- Take the scheduled outcome of the next engine statement. -/
def Store.nextFault (s : Store TeamsTbl ListsTbl) : Option Error × Store TeamsTbl ListsTbl :=
  match s.faults with
  | [] => (none, s)
  | f :: rest => (f, { s with faults := rest })

/-- Append a call to the trace. -/
def Store.record (s : Store TeamsTbl ListsTbl) (c : StoreCall) : Store TeamsTbl ListsTbl :=
  { s with trace := s.trace ++ [c] }

/-- The call `GetTeamByID(id)`. -/
def GetTeamByID (h : Helpers TeamsTbl ListsTbl ListRec Team) (id : Int)
    (s : Store TeamsTbl ListsTbl) : Except Error Team × Store TeamsTbl ListsTbl :=
  (h.GetTeamByID s.teams id, s.record (StoreCall.GetTeamByID id))

/-- The call `l.GetSimpleByID()` on the literal `List{ID: id}`. -/
def GetSimpleByID (h : Helpers TeamsTbl ListsTbl ListRec Team) (id : Int)
    (s : Store TeamsTbl ListsTbl) : Except Error ListRec × Store TeamsTbl ListsTbl :=
  (h.GetSimpleByID s.lists (h.newList id), s.record (StoreCall.GetSimpleByID id))

/-- The call `updateListLastUpdated(l)`. -/
def updateListLastUpdated (h : Helpers TeamsTbl ListsTbl ListRec Team) (l : ListRec)
    (s : Store TeamsTbl ListsTbl) : Option Error × Store TeamsTbl ListsTbl :=
  let r := h.updateListLastUpdated s.lists l
  (r.2, { s.record StoreCall.updateListLastUpdated with lists := r.1 })

/-- The query `x.Where("team_id = ?", t).And("list_id = ?", l).Get(&TeamList{})`:
whether a matching row exists. -/
def engineGet (teamID listID : Int) (s : Store TeamsTbl ListsTbl) :
    Except Error Bool × Store TeamsTbl ListsTbl :=
  match (s.record (StoreCall.Get teamID listID)).nextFault with
  | (some err, s1) => (Except.error err, s1)
  | (none, s1) => (Except.ok (s1.team_list.any (TeamList.matches teamID listID)), s1)

/-- The next value of the auto-increment primary key of `team_list`. -/
def nextID (rows : List TeamList) : Int :=
  (rows.map (fun r => r.ID)).foldl max 0 + 1

/-- The statement `x.Insert(tl)`: one row is appended.  The key `ID` is `autoincr` (a
zero id is replaced by the next value) and `unique pk` (a taken id is refused);
`Created` and `Updated` are set to the time of the statement. -/
def engineInsert (now : Int) (tl : TeamList) (s : Store TeamsTbl ListsTbl) :
    Option Error × Store TeamsTbl ListsTbl :=
  match (s.record (StoreCall.Insert tl)).nextFault with
  | (some err, s1) => (some err, s1)
  | (none, s1) =>
    let row : TeamList :=
      { tl with ID := if tl.ID = 0 then nextID s1.team_list else tl.ID,
                Created := now, Updated := now }
    if s1.team_list.any (fun r => r.ID == row.ID) then
      (some (Error.external "duplicate primary key"), s1)
    else (none, { s1 with team_list := s1.team_list ++ [row] })

/-- The statement `x.Where("team_id = ?", t).And("list_id = ?", l).Delete(TeamList{})`:
every matching row is removed. -/
def engineDelete (teamID listID : Int) (s : Store TeamsTbl ListsTbl) :
    Option Error × Store TeamsTbl ListsTbl :=
  match (s.record (StoreCall.Delete teamID listID)).nextFault with
  | (some err, s1) => (some err, s1)
  | (none, s1) =>
    (none, { s1 with
      team_list := s1.team_list.filter (fun r => !TeamList.matches teamID listID r) })

/-- The statement `x.Where("list_id = ? AND team_id = ?", l, t).Cols("right").Update(tl)`:
the column `right` of every matching row is set (and `updated`, which the engine
maintains). -/
def engineUpdate (now : Int) (tl : TeamList) (s : Store TeamsTbl ListsTbl) :
    Option Error × Store TeamsTbl ListsTbl :=
  match (s.record (StoreCall.Update tl)).nextFault with
  | (some err, s1) => (some err, s1)
  | (none, s1) =>
    (none, { s1 with
      team_list := s1.team_list.map (fun r =>
        if TeamList.matches tl.TeamID tl.ListID r then
          { r with Right := tl.Right, Updated := now }
        else r) })

/-- Create creates a new team <-> list relation. -/
def TeamList.Create (h : Helpers TeamsTbl ListsTbl ListRec Team) (now : Int)
    (tl : TeamList) (_a : Auth) (s : Store TeamsTbl ListsTbl) :
    Option Error × Store TeamsTbl ListsTbl :=
  -- Check if the rights are valid
  match Right.isValid tl.Right with
  | some err => (some err, s)
  | none =>
  -- Check if the team exists
  match GetTeamByID h tl.TeamID s with
  | (Except.error err, s1) => (some err, s1)
  | (Except.ok _, s1) =>
  -- Check if the list exists
  match GetSimpleByID h tl.ListID s1 with
  | (Except.error err, s2) => (some err, s2)
  | (Except.ok l, s2) =>
  -- Check if the team is already on the list
  match engineGet tl.TeamID tl.ListID s2 with
  | (Except.error err, s3) => (some err, s3)
  | (Except.ok true, s3) => (some (Error.ErrTeamAlreadyHasAccess tl.TeamID tl.ListID), s3)
  | (Except.ok false, s3) =>
  -- Insert the new team
  match engineInsert now tl s3 with
  | (some err, s4) => (some err, s4)
  | (none, s4) => updateListLastUpdated h l s4

/-- Delete deletes a team <-> list relation based on the list & team id. -/
def TeamList.Delete (h : Helpers TeamsTbl ListsTbl ListRec Team) (tl : TeamList)
    (s : Store TeamsTbl ListsTbl) : Option Error × Store TeamsTbl ListsTbl :=
  -- Check if the team exists
  match GetTeamByID h tl.TeamID s with
  | (Except.error err, s1) => (some err, s1)
  | (Except.ok _, s1) =>
  -- Check if the team has access to the list
  match engineGet tl.TeamID tl.ListID s1 with
  | (Except.error err, s2) => (some err, s2)
  | (Except.ok false, s2) =>
    (some (Error.ErrTeamDoesNotHaveAccessToList tl.TeamID tl.ListID), s2)
  | (Except.ok true, s2) =>
  -- Delete the relation
  match engineDelete tl.TeamID tl.ListID s2 with
  | (some err, s3) => (some err, s3)
  | (none, s3) => updateListLastUpdated h (h.newList tl.ListID) s3

/-- Update updates a team <-> list relation. -/
def TeamList.Update (h : Helpers TeamsTbl ListsTbl ListRec Team) (now : Int)
    (tl : TeamList) (s : Store TeamsTbl ListsTbl) :
    Option Error × Store TeamsTbl ListsTbl :=
  -- Check if the right is valid
  match Right.isValid tl.Right with
  | some err => (some err, s)
  | none =>
  match engineUpdate now tl s with
  | (some err, s1) => (some err, s1)
  | (none, s1) => updateListLastUpdated h (h.newList tl.ListID) s1

end ListTeam

/-! ## Sequences of sharing calls and the uniqueness of a relation -/

/-- One call of the team-share operations with its arguments. -/
inductive ShareCall where
  | create (now : Int) (tl : TeamList) (a : Auth)
  | update (now : Int) (tl : TeamList)
  | delete (tl : TeamList)
deriving DecidableEq, Repr

section Sequences
variable {TeamsTbl ListsTbl ListRec Team : Type}

/-- Run one call and keep the store it leaves, whether or not it returned an error. -/
def ShareCall.run (h : Helpers TeamsTbl ListsTbl ListRec Team) (c : ShareCall)
    (s : Store TeamsTbl ListsTbl) : Store TeamsTbl ListsTbl :=
  match c with
  | ShareCall.create now tl a => (TeamList.Create h now tl a s).2
  | ShareCall.update now tl => (TeamList.Update h now tl s).2
  | ShareCall.delete tl => (TeamList.Delete h tl s).2

/-- Run a sequence of calls, first to last. -/
def runCalls (h : Helpers TeamsTbl ListsTbl ListRec Team) (cs : List ShareCall)
    (s : Store TeamsTbl ListsTbl) : Store TeamsTbl ListsTbl :=
  cs.foldl (fun st c => c.run h st) s

end Sequences

/-- Every (team id, list id) pair has at most one row. -/
def UniquePairs (rows : List TeamList) : Prop :=
  ∀ teamID listID : Int, (rows.filter (TeamList.matches teamID listID)).length ≤ 1

/-- Uniqueness can be checked on the pairs that occur: a pair without a row has none. -/
instance UniquePairs.decidable (rows : List TeamList) : Decidable (UniquePairs rows) :=
  decidable_of_iff
    (∀ r ∈ rows, (rows.filter (TeamList.matches r.TeamID r.ListID)).length ≤ 1)
    ⟨fun hb t l => by
      by_cases hex : ∃ r ∈ rows, TeamList.matches t l r = true
      · obtain ⟨r, hr, hm⟩ := hex
        have hkeys : r.TeamID = t ∧ r.ListID = l := by
          simpa [TeamList.matches] using hm
        rw [← hkeys.1, ← hkeys.2]
        exact hb r hr
      · have hempty : rows.filter (TeamList.matches t l) = [] := by
          rw [List.filter_eq_nil_iff]
          intro r hr hm
          exact hex ⟨r, hr, hm⟩
        rw [hempty]
        exact Nat.zero_le _,
     fun hu r _ => hu r.TeamID r.ListID⟩

/-- The engine reports no failure: every scheduled outcome is a success. -/
def Store.healthy {TeamsTbl ListsTbl : Type} (s : Store TeamsTbl ListsTbl) : Prop :=
  ∀ f ∈ s.faults, f = none

/-- Health is checked by reading the schedule. -/
instance Store.healthy.decidable {TeamsTbl ListsTbl : Type} (s : Store TeamsTbl ListsTbl) :
    Decidable s.healthy :=
  inferInstanceAs (Decidable (∀ f ∈ s.faults, f = none))

/-! ## Sample stores -/

/-- A small concrete store for the bucket checks: the stored buckets, and the pairs
(project, actor id) that may write. -/
structure SampleData where
  buckets : List Bucket
  writers : List (Int × Int)
deriving DecidableEq, Repr

/-- Sample collaborators over `SampleData`: a bucket is found by id, and a project is
writable by the listed actors. -/
def sampleRights : RightsDeps SampleData where
  getBucketByID := fun st id =>
    match st.buckets.find? (fun b => b.ID == id) with
    | some b => Except.ok b
    | none => Except.error (Error.external "bucket does not exist")
  CanWrite := fun st p a => (st.writers.contains (p.ID, a.ID), none)

/-- Bucket 10 lives in project 1, which actor 2 may write. -/
def sampleSession : Session SampleData :=
  { data := { buckets := [{ ID := 10, ProjectID := 1 }], writers := [(1, 2)] }, trace := [] }

/-- Sample collaborators whose `CanWrite` answers for an archived project: the listed
actors get true, and every answer carries the error that the project is archived. -/
def archivedRights : RightsDeps SampleData where
  getBucketByID := sampleRights.getBucketByID
  CanWrite := fun st p a =>
    (st.writers.contains (p.ID, a.ID), some (Error.external "project is archived"))

/-- Sample collaborators for the sharing calls: the teams and the lists are the lists of
their ids, a lookup fails when the id is absent, and touching a list always succeeds. -/
def sampleHelpers : Helpers (List Int) (List Int) Int Int where
  newList := fun id => id
  GetTeamByID := fun teams id =>
    if teams.contains id then Except.ok id
    else Except.error (Error.external "team does not exist")
  GetSimpleByID := fun lists l =>
    if lists.contains l then Except.ok l
    else Except.error (Error.external "list does not exist")
  updateListLastUpdated := fun lists _ => (lists, none)

/-- Team 1 and list 1 exist, nothing is shared, the engine does not fail. -/
def sampleStore : Store (List Int) (List Int) :=
  { teams := [1], lists := [1], team_list := [], faults := [], trace := [] }

/-- The relation (team 1, list 1) with the given right, as a request carries it. -/
def sampleShare (r : Right) : TeamList :=
  { ID := 0, TeamID := 1, ListID := 1, Right := r, Created := 0, Updated := 0 }

/-- The sample store once team 1 has been given read access to list 1. -/
def sharedStore : Store (List Int) (List Int) :=
  (TeamList.Create sampleHelpers 100 (sampleShare RightRead) { ID := 2 } sampleStore).2

/-! ## `models/user_add_update.go` -/

/-- The fields of `User` that the embedded files read or set; `User{}` is `User.zero`. -/
structure User where
  ID : Int
  Username : String
  Password : String
  Email : String
deriving DecidableEq, Repr

/-- The zero value `User{}`. -/
def User.zero : User := { ID := 0, Username := "", Password := "", Email := "" }

/-- Errors returned by `user_add_update.go`.  `external` stands for any error produced by
a collaborator the file only calls (lookups, bcrypt, the database engine). -/
inductive UserError where
  | ErrNoUsernamePassword
  | ErrUsernameExists (userID : Int) (username : String)
  | ErrUserEmailExists (userID : Int) (email : String)
  | ErrUserDoesNotExist (userID : Int)
  | external (text : String)
deriving DecidableEq, Repr

/-- The calls `user_add_update.go` makes that reach the store. -/
inductive UserCall where
  | GetUser (u : User)
  | GetUserByID (id : Int)
  | Insert (u : User)
  | Update (id : Int) (u : User)
deriving DecidableEq, Repr

/-- The store behind the engine `x`, as the user functions see it: the rows of the users
table in insertion order, the scheduled outcomes of the next statements the engine runs
(as in `Store`), and the calls made so far. -/
structure UserStore where
  users : List User
  faults : List (Option UserError)
  trace : List UserCall
deriving DecidableEq, Repr

/-- The functions `user_add_update.go` calls and does not define.  The lookups read the
users table and answer `(user, exists, err)`; `IsErrUserDoesNotExist` is the test on the
kind of an error; `GenerateFromPassword` is bcrypt, answering `(bytes, err)`. -/
structure UserDeps where
  GetUser : List User → User → User × Bool × Option UserError
  GetUserByID : List User → Int → User × Bool × Option UserError
  IsErrUserDoesNotExist : UserError → Bool
  GenerateFromPassword : String → Nat → String × Option UserError

/-- Append a call to the trace. -/
def UserStore.record (s : UserStore) (c : UserCall) : UserStore :=
  { s with trace := s.trace ++ [c] }

/-- Take the scheduled outcome of the next engine statement. -/
def UserStore.nextFault (s : UserStore) : Option UserError × UserStore :=
  match s.faults with
  | [] => (none, s)
  | f :: rest => (f, { s with faults := rest })

/-- The engine reports no failure: every scheduled outcome is a success. -/
def UserStore.healthy (s : UserStore) : Prop :=
  ∀ f ∈ s.faults, f = none

/-- Health is checked by reading the schedule. -/
instance UserStore.healthy.decidable (s : UserStore) : Decidable s.healthy :=
  inferInstanceAs (Decidable (∀ f ∈ s.faults, f = none))

/-- The call `GetUser(u)`. -/
def GetUser (d : UserDeps) (u : User) (s : UserStore) :
    (User × Bool × Option UserError) × UserStore :=
  (d.GetUser s.users u, s.record (UserCall.GetUser u))

/-- The call `GetUserByID(id)`. -/
def GetUserByID (d : UserDeps) (id : Int) (s : UserStore) :
    (User × Bool × Option UserError) × UserStore :=
  (d.GetUserByID s.users id, s.record (UserCall.GetUserByID id))

/-- HashPassword hashes a password. -/
def hashPassword (d : UserDeps) (password : String) : String × Option UserError :=
  let r := d.GenerateFromPassword password 14
  (r.1, r.2)

/-- The next value of the auto-increment primary key of the users table. -/
def nextUserID (rows : List User) : Int :=
  (rows.map (fun r => r.ID)).foldl max 0 + 1

/-- The statement `x.Insert(newUser)`: one row is appended; a zero id is replaced by the
next value of the key and a taken id is refused. -/
def engineInsertUser (u : User) (s : UserStore) : Option UserError × UserStore :=
  match (s.record (UserCall.Insert u)).nextFault with
  | (some err, s1) => (some err, s1)
  | (none, s1) =>
    let row : User := { u with ID := if u.ID = 0 then nextUserID s1.users else u.ID }
    if s1.users.any (fun r => r.ID == row.ID) then
      (some (UserError.external "duplicate primary key"), s1)
    else (none, { s1 with users := s1.users ++ [row] })

/-- The statement `x.Id(id).Update(user)`: in the row with that id, every column whose
field in `user` is not the zero value is set to it; the other columns and the key are
kept. -/
def engineUpdateUser (id : Int) (u : User) (s : UserStore) : Option UserError × UserStore :=
  match (s.record (UserCall.Update id u)).nextFault with
  | (some err, s1) => (some err, s1)
  | (none, s1) =>
    (none, { s1 with
      users := s1.users.map (fun r =>
        if r.ID == id then
          { r with Username := if u.Username = "" then r.Username else u.Username,
                   Password := if u.Password = "" then r.Password else u.Password,
                   Email := if u.Email = "" then r.Email else u.Email }
        else r) })

/-- The test `err != nil && !IsErrUserDoesNotExist(err)`: the error to return, if any. -/
def lookupFailure (d : UserDeps) (err : Option UserError) : Option UserError :=
  match err with
  | some e => if !d.IsErrUserDoesNotExist e then some e else none
  | none => none

/-- CreateUser creates a new user and inserts it into the database. -/
def CreateUser (d : UserDeps) (user : User) (s : UserStore) :
    (User × Option UserError) × UserStore :=
  let newUser := user
  -- Check if we have all needed informations
  if newUser.Password = "" ∨ newUser.Username = "" then
    ((User.zero, some UserError.ErrNoUsernamePassword), s)
  else
  -- Check if the user already existst with that username
  match GetUser d { User.zero with Username := newUser.Username } s with
  | ((existingUser, exists1, err), s1) =>
  match lookupFailure d err with
  | some e => ((User.zero, some e), s1)
  | none =>
  if exists1 then
    ((User.zero, some (UserError.ErrUsernameExists existingUser.ID existingUser.Username)), s1)
  else
  -- Check if the user already existst with that email
  match GetUser d { User.zero with Email := newUser.Email } s1 with
  | ((existingUser2, exists2, err2), s2) =>
  match lookupFailure d err2 with
  | some e => ((User.zero, some e), s2)
  | none =>
  if exists2 then
    ((User.zero, some (UserError.ErrUserEmailExists existingUser2.ID existingUser2.Email)), s2)
  else
  -- Hash the password
  match hashPassword d user.Password with
  | (_, some e) => ((User.zero, some e), s2)
  | (hashed, none) =>
  let newUser : User := { newUser with Password := hashed }
  -- Insert it
  match engineInsertUser newUser s2 with
  | (some e, s3) => ((User.zero, some e), s3)
  | (none, s3) =>
  -- Get the full new User
  match GetUser d newUser s3 with
  | ((_, _, some e), s4) => ((User.zero, some e), s4)
  | ((newUserOut, _, none), s4) => ((newUserOut, none), s4)

/-- UpdateUser updates a user. -/
def UpdateUser (d : UserDeps) (user : User) (s : UserStore) :
    (User × Option UserError) × UserStore :=
  -- Check if it exists
  match GetUserByID d user.ID s with
  | ((_, _, some e), s1) => ((User.zero, some e), s1)
  | ((theUser, exists1, none), s1) =>
  if exists1 then
    -- Dont change the username if we dont have one
    let user : User :=
      if user.Username = "" then { user with Username := theUser.Username } else user
    -- set the password to the one in the database
    let user : User := { user with Password := theUser.Password }
    -- Update it
    match engineUpdateUser user.ID user s1 with
    | (some e, s2) => ((User.zero, some e), s2)
    | (none, s2) =>
    -- Get the newly updated user
    match GetUserByID d user.ID s2 with
    | ((_, _, some e), s3) => ((User.zero, some e), s3)
    | ((updatedUser, _, none), s3) => ((updatedUser, none), s3)
  else ((User.zero, some (UserError.ErrUserDoesNotExist user.ID)), s1)

/-! ## `routes/api/v1/caldav.go` -/

/-- The value of an `int64` computation: the integer wrapped to 64 bits, two's
complement. -/
def wrapInt64 (n : Int) : Int :=
  (n + 2 ^ 63) % 2 ^ 64 - 2 ^ 63

/-- The fields of `models.ListTask` that `caldav.go` reads; the three times are `int64`
unix timestamps. -/
structure ListTask where
  Text : String
  Description : String
  Updated : Int
  DueDateUnix : Int
  ReminderUnix : Int
deriving DecidableEq, Repr

/-- The struct `caldav.Alarm`, as `caldav.go` fills it. -/
structure Alarm where
  TimeUnix : Int
deriving DecidableEq, Repr

/-- The struct `caldav.Event`, as `caldav.go` fills it. -/
structure Event where
  Summary : String
  Description : String
  UID : String
  TimestampUnix : Int
  StartUnix : Int
  EndUnix : Int
  Alarms : List Alarm
deriving DecidableEq, Repr

/-- The struct `caldav.Config`. -/
structure Config where
  Name : String
  ProdID : String
deriving DecidableEq, Repr

/-- The struct `models.UserLogin`. -/
structure UserLogin where
  Username : String
  Password : String
deriving DecidableEq, Repr

/-- What the handler leaves behind: the response written with `c.String` and the
headers set before it, or the error it returns to the framework. -/
inductive Reply where
  | text (status : Nat) (body : String) (headers : List (String × String))
  | failed (httpError : String)
deriving DecidableEq, Repr

/-- The functions `caldav.go` calls and does not define. -/
structure CaldavDeps where
  CheckUserCredentials : UserLogin → User × Option Error
  GetTasksByUser : String → User → Int → List ListTask × Option Error
  HandleHTTPError : Error → String
  ParseEvents : Config → List Event → String

/-- The value `int64(time.Hour.Seconds())`. -/
def hour : Int := 3600

/-- The body of the loop over the tasks: a task with a due date appends one event to
`caldavTasks`, with an alarm when the task has a reminder. -/
def caldavStep (caldavTasks : List Event) (t : ListTask) : List Event :=
  if t.DueDateUnix ≠ 0 then
    let event : Event :=
      { Summary := t.Text,
        Description := t.Description,
        UID := "",
        TimestampUnix := t.Updated,
        StartUnix := t.DueDateUnix,
        EndUnix := wrapInt64 (t.DueDateUnix + hour),
        Alarms := [] }
    let event : Event :=
      if t.ReminderUnix ≠ 0 then
        { event with Alarms := event.Alarms ++ [{ TimeUnix := t.ReminderUnix }] }
      else event
    caldavTasks ++ [event]
  else caldavTasks

/-- The loop `for _, t := range tasks`, started with the nil slice. -/
def caldavEvents (tasks : List ListTask) : List Event :=
  tasks.foldl caldavStep []

/-- Caldav returns a caldav-readable format with all tasks.  `user`, `pass`, `ok` are the
result of `c.Request().BasicAuth()`. -/
def Caldav (d : CaldavDeps) (user pass : String) (ok : Bool) : Reply :=
  -- Check credentials
  let creds : UserLogin := { Username := user, Password := pass }
  match d.CheckUserCredentials creds with
  | (u, err) =>
  if !ok || err.isSome then
    Reply.text 401 "Unauthorized." [("WWW-Authenticate", "Basic realm=\"Vikunja cal\"")]
  else
  -- Get all tasks for that user
  match d.GetTasksByUser "" u (-1) with
  | (_, some e) => Reply.failed (d.HandleHTTPError e)
  | (tasks, none) =>
  let caldavConfig : Config :=
    { Name := "Vikunja Calendar for " ++ u.Username, ProdID := "Vikunja Todo App" }
  Reply.text 200 (d.ParseEvents caldavConfig (caldavEvents tasks)) []

/-- A task is exported when it has a due date. -/
def ListTask.hasDueDate (t : ListTask) : Bool :=
  t.DueDateUnix != 0

/-- The event the export is documented to hold for a task with a due date. -/
def exportsAs (t : ListTask) (e : Event) : Prop :=
  e.Summary = t.Text ∧ e.Description = t.Description ∧ e.TimestampUnix = t.Updated ∧
  e.StartUnix = t.DueDateUnix ∧ e.EndUnix = wrapInt64 (t.DueDateUnix + 3600) ∧
  (-(2 : Int) ^ 63 ≤ t.DueDateUnix → t.DueDateUnix + 3600 < 2 ^ 63 →
    e.EndUnix = t.DueDateUnix + 3600) ∧
  (t.ReminderUnix ≠ 0 → e.Alarms = [{ TimeUnix := t.ReminderUnix }]) ∧
  (t.ReminderUnix = 0 → e.Alarms = [])

/-- Sample collaborators for the export: one account, two tasks, and a renderer that
lists summary, end and number of alarms of each event. -/
def sampleCaldav : CaldavDeps where
  CheckUserCredentials := fun c =>
    if c.Username = "ann" ∧ c.Password = "pw" then
      ({ ID := 1, Username := "ann", Password := "", Email := "" }, none)
    else (User.zero, some (Error.external "wrong username or password"))
  GetTasksByUser := fun _ _ _ =>
    ([{ Text := "a", Description := "", Updated := 5, DueDateUnix := 1000, ReminderUnix := 900 },
      { Text := "b", Description := "", Updated := 6, DueDateUnix := 0, ReminderUnix := 7 },
      { Text := "c", Description := "", Updated := 7, DueDateUnix := 2000, ReminderUnix := 0 }],
     none)
  HandleHTTPError := fun _ => "internal error"
  ParseEvents := fun _ es =>
    String.intercalate ";" (es.map (fun e =>
      e.Summary ++ ":" ++ toString e.EndUnix ++ ":" ++ toString e.Alarms.length))

/-- Sample collaborators for the user functions: lookups by the first non-zero field of
the pattern, absence reported as `ErrUserDoesNotExist{}` by `GetUser` and as
`exists = false` by `GetUserByID`, and a hash that tags the password. -/
def sampleUserDeps : UserDeps where
  GetUser := fun rows u =>
    match rows.find? (fun r =>
      (u.ID == 0 || r.ID == u.ID) && (u.Username == "" || r.Username == u.Username) &&
      (u.Email == "" || r.Email == u.Email) && (u.Password == "" || r.Password == u.Password))
    with
    | some r => (r, true, none)
    | none => (User.zero, false, some (UserError.ErrUserDoesNotExist 0))
  GetUserByID := fun rows id =>
    match rows.find? (fun r => r.ID == id) with
    | some r => (r, true, none)
    | none => (User.zero, false, none)
  IsErrUserDoesNotExist := fun e =>
    match e with
    | UserError.ErrUserDoesNotExist _ => true
    | _ => false
  GenerateFromPassword := fun pw _ => ("bcrypt:" ++ pw, none)

/-- One stored user. -/
def sampleUsers : UserStore :=
  { users := [{ ID := 1, Username := "ann", Password := "bcrypt:pw", Email := "ann@x.org" }],
    faults := [], trace := [] }

/-! ## Theorems: `kanban_rights.go` -/

/-- C1. Hierarchical delegation for buckets: when the bucket with id `b.ID` is stored as
`bb`, `CanUpdate` returns exactly the pair that `CanWrite` returns for the project
`bb.ProjectID` of the stored bucket; in particular it returns `(true, nil)` as soon as
that project's `CanWrite` does.  Nothing of the bucket itself but its stored parent is
consulted. -/
theorem Bucket_CanUpdate_delegates_to_project {σ : Type} (d : RightsDeps σ) (b bb : Bucket)
    (s : Session σ) (a : Auth)
    (hstored : d.getBucketByID s.data b.ID = Except.ok bb) :
    (Bucket.CanUpdate d b s a).1 = d.CanWrite s.data { ID := bb.ProjectID } a ∧
    (Bucket.CanUpdate d b s a).1
      = (Project.CanWrite d { ID := bb.ProjectID } s a).1 ∧
    (d.CanWrite s.data { ID := bb.ProjectID } a = (true, none) →
      (Bucket.CanUpdate d b s a).1 = (true, none)) := by
  have key : (Bucket.CanUpdate d b s a).1 = d.CanWrite s.data { ID := bb.ProjectID } a := by
    simp [Bucket.CanUpdate, Bucket.canDoBucket, getBucketByID, hstored, Project.CanWrite]
  refine ⟨key, ?_, ?_⟩
  · rw [key]; rfl
  · intro hw; rw [key, hw]

/-- C1 at the sample session: bucket 10 is stored under project 1, which actor 2 may
write, so actor 2 may update it, whatever project the request names. -/
theorem Bucket_CanUpdate_delegates_to_project_witness :
    sampleRights.getBucketByID sampleSession.data 10 = Except.ok { ID := 10, ProjectID := 1 } ∧
    (Bucket.CanUpdate sampleRights { ID := 10, ProjectID := 77 } sampleSession { ID := 2 }).1
      = (true, none) :=
  ⟨rfl,
   (Bucket_CanUpdate_delegates_to_project sampleRights { ID := 10, ProjectID := 77 }
      { ID := 10, ProjectID := 1 } sampleSession { ID := 2 } rfl).2.2 (by decide)⟩

/-- C2. Create is evaluated against the parent: `CanCreate` returns exactly the pair of
`Project{ID: b.ProjectID}.CanWrite(a)`, its only call on the session is that `CanWrite`
(the bucket is never looked up), and so the outcome does not depend on how bucket
lookups answer nor on `b.ID`. -/
theorem Bucket_CanCreate_is_parent_CanWrite {σ : Type} (d : RightsDeps σ) (b : Bucket)
    (s : Session σ) (a : Auth) :
    Bucket.CanCreate d b s a = Project.CanWrite d { ID := b.ProjectID } s a ∧
    (Bucket.CanCreate d b s a).1 = d.CanWrite s.data { ID := b.ProjectID } a ∧
    (Bucket.CanCreate d b s a).2.trace
      = s.trace ++ [RightsCall.CanWrite b.ProjectID a] ∧
    (∀ lookup : σ → Int → Except Error Bucket,
      Bucket.CanCreate { d with getBucketByID := lookup } b s a = Bucket.CanCreate d b s a) ∧
    (∀ id : Int, Bucket.CanCreate d { b with ID := id } s a = Bucket.CanCreate d b s a) :=
  ⟨rfl, rfl, rfl, fun _ => rfl, fun _ => rfl⟩

/-- C3, as stated, fails in its last clause.  With a `CanWrite` that answers true
together with an error, updating and deleting the stored bucket 10 return that pair: an
error path whose bool is true. -/
theorem Bucket_error_with_true_counterexample :
    (Bucket.CanUpdate archivedRights { ID := 10, ProjectID := 1 } sampleSession { ID := 2 }).1
      = (true, some (Error.external "project is archived")) ∧
    (Bucket.CanDelete archivedRights { ID := 10, ProjectID := 1 } sampleSession { ID := 2 }).1
      = (true, some (Error.external "project is archived")) ∧
    ¬ ((Bucket.CanUpdate archivedRights { ID := 10, ProjectID := 1 } sampleSession
          { ID := 2 }).1.2 ≠ none →
        (Bucket.CanUpdate archivedRights { ID := 10, ProjectID := 1 } sampleSession
          { ID := 2 }).1.1 = false) ∧
    ¬ ((Bucket.CanDelete archivedRights { ID := 10, ProjectID := 1 } sampleSession
          { ID := 2 }).1.2 ≠ none →
        (Bucket.CanDelete archivedRights { ID := 10, ProjectID := 1 } sampleSession
          { ID := 2 }).1.1 = false) := by
  decide

/-- C3, amended.  No authorization on a bucket that cannot be loaded: when the lookup of
`b.ID` fails with `e`, `CanUpdate` and `CanDelete` both return `(false, e)` and the only
call made on the session is that lookup, so the project's `CanWrite` is not evaluated.
That is the only error path of their own: when the lookup gives the stored bucket, both
return the pair of its project's `CanWrite` unchanged, so a result that carries an error
has the bool false unless that `CanWrite` itself answered true together with the
error. -/
theorem Bucket_lookup_failure_denies {σ : Type} (d : RightsDeps σ) (b : Bucket)
    (s : Session σ) (a : Auth) :
    (∀ e : Error, d.getBucketByID s.data b.ID = Except.error e →
      Bucket.CanUpdate d b s a
        = ((false, some e), { s with trace := s.trace ++ [RightsCall.getBucketByID b.ID] }) ∧
      Bucket.CanDelete d b s a
        = ((false, some e), { s with trace := s.trace ++ [RightsCall.getBucketByID b.ID] }) ∧
      (∀ p : Int, ∀ a2 : Auth,
        RightsCall.CanWrite p a2 ∈ (Bucket.CanUpdate d b s a).2.trace →
          RightsCall.CanWrite p a2 ∈ s.trace) ∧
      (∀ p : Int, ∀ a2 : Auth,
        RightsCall.CanWrite p a2 ∈ (Bucket.CanDelete d b s a).2.trace →
          RightsCall.CanWrite p a2 ∈ s.trace)) ∧
    (∀ bb : Bucket, d.getBucketByID s.data b.ID = Except.ok bb →
      (Bucket.CanUpdate d b s a).1 = d.CanWrite s.data { ID := bb.ProjectID } a ∧
      (Bucket.CanDelete d b s a).1 = d.CanWrite s.data { ID := bb.ProjectID } a) ∧
    ((Bucket.CanUpdate d b s a).1.2 ≠ none →
      (Bucket.CanUpdate d b s a).1.1 = false ∨
      ∃ bb : Bucket, d.getBucketByID s.data b.ID = Except.ok bb ∧
        d.CanWrite s.data { ID := bb.ProjectID } a
          = (true, (Bucket.CanUpdate d b s a).1.2)) ∧
    ((Bucket.CanDelete d b s a).1.2 ≠ none →
      (Bucket.CanDelete d b s a).1.1 = false ∨
      ∃ bb : Bucket, d.getBucketByID s.data b.ID = Except.ok bb ∧
        d.CanWrite s.data { ID := bb.ProjectID } a
          = (true, (Bucket.CanDelete d b s a).1.2)) := by
  have hok : ∀ bb : Bucket, d.getBucketByID s.data b.ID = Except.ok bb →
      (Bucket.canDoBucket d b s a).1 = d.CanWrite s.data { ID := bb.ProjectID } a := by
    intro bb hbb
    simp [Bucket.canDoBucket, getBucketByID, hbb, Project.CanWrite]
  have hclosed : (Bucket.canDoBucket d b s a).1.2 ≠ none →
      (Bucket.canDoBucket d b s a).1.1 = false ∨
      ∃ bb : Bucket, d.getBucketByID s.data b.ID = Except.ok bb ∧
        d.CanWrite s.data { ID := bb.ProjectID } a
          = (true, (Bucket.canDoBucket d b s a).1.2) := by
    intro _
    cases hl : d.getBucketByID s.data b.ID with
    | error e =>
      left
      simp [Bucket.canDoBucket, getBucketByID, hl]
    | ok bb =>
      rw [hok bb hl]
      cases hw : (d.CanWrite s.data { ID := bb.ProjectID } a).1 with
      | false => left; rfl
      | true =>
        right
        refine ⟨bb, rfl, ?_⟩
        rw [← hw]
  refine ⟨?_, fun bb hbb => ⟨hok bb hbb, hok bb hbb⟩, hclosed, hclosed⟩
  intro e he
  have hu : Bucket.canDoBucket d b s a
      = ((false, some e), { s with trace := s.trace ++ [RightsCall.getBucketByID b.ID] }) := by
    simp [Bucket.canDoBucket, getBucketByID, he]
  refine ⟨hu, hu, ?_, ?_⟩ <;>
  · intro p a2 hmem
    simp only [Bucket.CanUpdate, Bucket.CanDelete, hu] at hmem
    simpa using hmem

/-- C3 amended, at the sample session: bucket 11 is not stored, so updating and deleting
it are refused with the lookup's error after a single lookup; bucket 10 is stored under
project 1, so updating it returns what `CanWrite` says of project 1. -/
theorem Bucket_lookup_failure_denies_witness :
    sampleRights.getBucketByID sampleSession.data 11
      = Except.error (Error.external "bucket does not exist") ∧
    Bucket.CanUpdate sampleRights { ID := 11, ProjectID := 1 } sampleSession { ID := 2 }
      = ((false, some (Error.external "bucket does not exist")),
         { sampleSession with trace := [RightsCall.getBucketByID 11] }) ∧
    Bucket.CanDelete sampleRights { ID := 11, ProjectID := 1 } sampleSession { ID := 2 }
      = ((false, some (Error.external "bucket does not exist")),
         { sampleSession with trace := [RightsCall.getBucketByID 11] }) ∧
    (Bucket.CanUpdate archivedRights { ID := 10, ProjectID := 77 } sampleSession { ID := 2 }).1
      = archivedRights.CanWrite sampleSession.data { ID := 1 } { ID := 2 } :=
  have h := Bucket_lookup_failure_denies sampleRights { ID := 11, ProjectID := 1 }
    sampleSession { ID := 2 }
  have h1 := h.1 (Error.external "bucket does not exist") rfl
  ⟨rfl, h1.1, h1.2.1,
   ((Bucket_lookup_failure_denies archivedRights { ID := 10, ProjectID := 77 }
      sampleSession { ID := 2 }).2.1 { ID := 10, ProjectID := 1 } rfl).1⟩

/-- C4. Deleting a bucket asks for what updating it asks for: `CanDelete` returns the
same pair as `CanUpdate` and leaves the same session, both being the one check
`canDoBucket`, which only ever asks the project for `CanWrite`. -/
theorem Bucket_CanDelete_eq_CanUpdate {σ : Type} (d : RightsDeps σ) (b : Bucket)
    (s : Session σ) (a : Auth) :
    Bucket.CanDelete d b s a = Bucket.CanUpdate d b s a ∧
    (Bucket.CanDelete d b s a).1 = (Bucket.CanUpdate d b s a).1 ∧
    (∀ bb : Bucket, d.getBucketByID s.data b.ID = Except.ok bb →
      (Bucket.CanDelete d b s a).1 = d.CanWrite s.data { ID := bb.ProjectID } a) := by
  refine ⟨rfl, rfl, ?_⟩
  intro bb hbb
  simp [Bucket.CanDelete, Bucket.canDoBucket, getBucketByID, hbb, Project.CanWrite]

/-! ## Theorems: `list_team.go` -/

section ListTeamLemmas
variable {TeamsTbl ListsTbl ListRec Team : Type}

/-- A statement's outcome is taken from the schedule without touching a table. -/
theorem nextFault_frame (s : Store TeamsTbl ListsTbl) :
    s.nextFault.2.teams = s.teams ∧ s.nextFault.2.lists = s.lists ∧
    s.nextFault.2.team_list = s.team_list ∧ s.nextFault.2.trace = s.trace := by
  unfold Store.nextFault
  cases s.faults <;> simp

/-- On a healthy store the next statement succeeds and the store stays healthy. -/
theorem nextFault_healthy (s : Store TeamsTbl ListsTbl) (hs : s.healthy) :
    s.nextFault.1 = none ∧ s.nextFault.2.healthy := by
  unfold Store.nextFault
  cases hf : s.faults with
  | nil => exact ⟨rfl, hs⟩
  | cons f rest =>
    have hmem : ∀ g ∈ f :: rest, g = none := by
      intro g hg; exact hs g (by rw [hf]; exact hg)
    refine ⟨hmem f (List.mem_cons_self _ _), ?_⟩
    intro g hg
    exact hmem g (List.mem_cons_of_mem _ hg)

/-- The existence query reads: tables are kept, and an answer is the truth. -/
theorem engineGet_spec (teamID listID : Int) (s : Store TeamsTbl ListsTbl) :
    (engineGet teamID listID s).2.teams = s.teams ∧
    (engineGet teamID listID s).2.lists = s.lists ∧
    (engineGet teamID listID s).2.team_list = s.team_list ∧
    (∀ b, (engineGet teamID listID s).1 = Except.ok b →
      b = s.team_list.any (TeamList.matches teamID listID)) := by
  have hf := nextFault_frame (s.record (StoreCall.Get teamID listID))
  unfold engineGet
  rcases hn : (s.record (StoreCall.Get teamID listID)).nextFault with ⟨f, s1⟩
  rw [hn] at hf
  simp only [Store.record] at hf
  cases f with
  | some err => simpa using ⟨hf.1, hf.2.1, hf.2.2.1⟩
  | none =>
    refine ⟨hf.1, hf.2.1, hf.2.2.1, ?_⟩
    intro b hb
    simp only [Except.ok.injEq] at hb
    rw [← hb]
    exact congrArg (fun rows => List.any rows (TeamList.matches teamID listID)) hf.2.2.1

/-- The insert statement keeps the other tables; it either fails and keeps `team_list`,
or succeeds and appends one row carrying the team, the list and the right given. -/
theorem engineInsert_spec (now : Int) (tl : TeamList) (s : Store TeamsTbl ListsTbl) :
    (engineInsert now tl s).2.teams = s.teams ∧
    (engineInsert now tl s).2.lists = s.lists ∧
    (((engineInsert now tl s).1 ≠ none ∧ (engineInsert now tl s).2.team_list = s.team_list) ∨
     ((engineInsert now tl s).1 = none ∧
       ∃ row : TeamList, row.TeamID = tl.TeamID ∧ row.ListID = tl.ListID ∧
         row.Right = tl.Right ∧
         (engineInsert now tl s).2.team_list = s.team_list ++ [row])) := by
  have hf := nextFault_frame (s.record (StoreCall.Insert tl))
  unfold engineInsert
  rcases hn : (s.record (StoreCall.Insert tl)).nextFault with ⟨f, s1⟩
  rw [hn] at hf
  simp only [Store.record] at hf
  cases f with
  | some err => exact ⟨hf.1, hf.2.1, Or.inl ⟨by simp, hf.2.2.1⟩⟩
  | none =>
    simp only
    generalize (if tl.ID = 0 then nextID s1.team_list else tl.ID) = newID
    by_cases hdup : (s1.team_list.any fun r => r.ID == newID) = true
    · rw [if_pos hdup]
      exact ⟨hf.1, hf.2.1, Or.inl ⟨by simp, hf.2.2.1⟩⟩
    · rw [if_neg hdup]
      refine ⟨hf.1, hf.2.1, Or.inr ⟨rfl,
        { tl with ID := newID, Created := now, Updated := now }, rfl, rfl, rfl, ?_⟩⟩
      simp only [hf.2.2.1]

/-- The delete statement keeps the other tables; it either fails and keeps `team_list`,
or succeeds and leaves exactly the rows that do not match. -/
theorem engineDelete_spec (teamID listID : Int) (s : Store TeamsTbl ListsTbl) :
    (engineDelete teamID listID s).2.teams = s.teams ∧
    (engineDelete teamID listID s).2.lists = s.lists ∧
    (((engineDelete teamID listID s).1 ≠ none ∧
        (engineDelete teamID listID s).2.team_list = s.team_list) ∨
     ((engineDelete teamID listID s).1 = none ∧
        (engineDelete teamID listID s).2.team_list
          = s.team_list.filter (fun r => !TeamList.matches teamID listID r))) := by
  have hf := nextFault_frame (s.record (StoreCall.Delete teamID listID))
  unfold engineDelete
  rcases hn : (s.record (StoreCall.Delete teamID listID)).nextFault with ⟨f, s1⟩
  rw [hn] at hf
  simp only [Store.record] at hf
  cases f with
  | some err => exact ⟨hf.1, hf.2.1, Or.inl ⟨by simp, hf.2.2.1⟩⟩
  | none =>
    refine ⟨hf.1, hf.2.1, Or.inr ⟨rfl, ?_⟩⟩
    simp only [hf.2.2.1]

/-- The update statement keeps the other tables; it either fails and keeps `team_list`,
or succeeds and rewrites `right` and `updated` of the matching rows in place. -/
theorem engineUpdate_spec (now : Int) (tl : TeamList) (s : Store TeamsTbl ListsTbl) :
    (engineUpdate now tl s).2.teams = s.teams ∧
    (engineUpdate now tl s).2.lists = s.lists ∧
    (((engineUpdate now tl s).1 ≠ none ∧ (engineUpdate now tl s).2.team_list = s.team_list) ∨
     ((engineUpdate now tl s).1 = none ∧
        (engineUpdate now tl s).2.team_list
          = s.team_list.map (fun r =>
              if TeamList.matches tl.TeamID tl.ListID r then
                { r with Right := tl.Right, Updated := now }
              else r))) := by
  have hf := nextFault_frame (s.record (StoreCall.Update tl))
  unfold engineUpdate
  rcases hn : (s.record (StoreCall.Update tl)).nextFault with ⟨f, s1⟩
  rw [hn] at hf
  simp only [Store.record] at hf
  cases f with
  | some err => exact ⟨hf.1, hf.2.1, Or.inl ⟨by simp, hf.2.2.1⟩⟩
  | none =>
    refine ⟨hf.1, hf.2.1, Or.inr ⟨rfl, ?_⟩⟩
    simp only [hf.2.2.1]

/-- Touching the list writes the table of lists only. -/
theorem updateListLastUpdated_frame (h : Helpers TeamsTbl ListsTbl ListRec Team) (l : ListRec)
    (s : Store TeamsTbl ListsTbl) :
    (updateListLastUpdated h l s).2.teams = s.teams ∧
    (updateListLastUpdated h l s).2.team_list = s.team_list ∧
    (updateListLastUpdated h l s).2.faults = s.faults :=
  ⟨rfl, rfl, rfl⟩

/-- On a healthy store the existence query answers, and answers the truth. -/
theorem engineGet_healthy (teamID listID : Int) (s : Store TeamsTbl ListsTbl)
    (hs : s.healthy) :
    (engineGet teamID listID s).1
      = Except.ok (s.team_list.any (TeamList.matches teamID listID)) ∧
    (engineGet teamID listID s).2.healthy := by
  have hh := nextFault_healthy (s.record (StoreCall.Get teamID listID)) hs
  have hf := nextFault_frame (s.record (StoreCall.Get teamID listID))
  unfold engineGet
  rcases hn : (s.record (StoreCall.Get teamID listID)).nextFault with ⟨f, s1⟩
  rw [hn] at hh hf
  simp only [Store.record] at hf
  obtain ⟨h1, h2⟩ := hh
  simp only at h1
  subst h1
  exact ⟨by simp only [hf.2.2.1], h2⟩

/-- On a healthy store the delete statement succeeds. -/
theorem engineDelete_healthy (teamID listID : Int) (s : Store TeamsTbl ListsTbl)
    (hs : s.healthy) :
    (engineDelete teamID listID s).1 = none ∧
    (engineDelete teamID listID s).2.team_list
      = s.team_list.filter (fun r => !TeamList.matches teamID listID r) ∧
    (engineDelete teamID listID s).2.healthy := by
  have hh := nextFault_healthy (s.record (StoreCall.Delete teamID listID)) hs
  have hf := nextFault_frame (s.record (StoreCall.Delete teamID listID))
  unfold engineDelete
  rcases hn : (s.record (StoreCall.Delete teamID listID)).nextFault with ⟨f, s1⟩
  rw [hn] at hh hf
  simp only [Store.record] at hf
  obtain ⟨h1, h2⟩ := hh
  simp only at h1
  subst h1
  refine ⟨rfl, by simp only [hf.2.2.1], ?_⟩
  exact h2

/-- What `Create` does to the tables: the teams are kept, and either the call fails and
`team_list` is kept, or no row matched before and exactly one row carrying the team,
the list and the right of the receiver is appended. -/
theorem Create_effect (h : Helpers TeamsTbl ListsTbl ListRec Team) (now : Int)
    (tl : TeamList) (a : Auth) (s : Store TeamsTbl ListsTbl) :
    (TeamList.Create h now tl a s).2.teams = s.teams ∧
    (((TeamList.Create h now tl a s).1 ≠ none ∧
        (TeamList.Create h now tl a s).2.team_list = s.team_list ∧
        (TeamList.Create h now tl a s).2.lists = s.lists) ∨
     (s.team_list.any (TeamList.matches tl.TeamID tl.ListID) = false ∧
        ∃ row : TeamList, row.TeamID = tl.TeamID ∧ row.ListID = tl.ListID ∧
          row.Right = tl.Right ∧
          (TeamList.Create h now tl a s).2.team_list = s.team_list ++ [row])) := by
  unfold TeamList.Create
  cases hv : Right.isValid tl.Right with
  | some err => exact ⟨rfl, Or.inl ⟨by simp, rfl, rfl⟩⟩
  | none =>
    simp only
    rcases hT : GetTeamByID h tl.TeamID s with ⟨rT, s1⟩
    have hs1 : s1.teams = s.teams ∧ s1.lists = s.lists ∧ s1.team_list = s.team_list := by
      simp only [GetTeamByID, Prod.mk.injEq] at hT
      rw [← hT.2]; exact ⟨rfl, rfl, rfl⟩
    cases rT with
    | error err => exact ⟨hs1.1, Or.inl ⟨by simp, hs1.2.2, hs1.2.1⟩⟩
    | ok t =>
      simp only
      rcases hL : GetSimpleByID h tl.ListID s1 with ⟨rL, s2⟩
      have hs2 : s2.teams = s.teams ∧ s2.lists = s.lists ∧ s2.team_list = s.team_list := by
        simp only [GetSimpleByID, Prod.mk.injEq] at hL
        rw [← hL.2]; exact hs1
      cases rL with
      | error err => exact ⟨hs2.1, Or.inl ⟨by simp, hs2.2.2, hs2.2.1⟩⟩
      | ok l =>
        simp only
        have hG := engineGet_spec tl.TeamID tl.ListID s2
        rcases hg : engineGet tl.TeamID tl.ListID s2 with ⟨rG, s3⟩
        rw [hg] at hG
        simp only at hG
        have hs3 : s3.teams = s.teams ∧ s3.lists = s.lists ∧ s3.team_list = s.team_list :=
          ⟨hG.1.trans hs2.1, hG.2.1.trans hs2.2.1, hG.2.2.1.trans hs2.2.2⟩
        cases rG with
        | error err => exact ⟨hs3.1, Or.inl ⟨by simp, hs3.2.2, hs3.2.1⟩⟩
        | ok b =>
          cases b with
          | true => exact ⟨hs3.1, Or.inl ⟨by simp, hs3.2.2, hs3.2.1⟩⟩
          | false =>
            simp only
            have hnone : s.team_list.any (TeamList.matches tl.TeamID tl.ListID) = false := by
              have := hG.2.2.2 false rfl
              rw [hs2.2.2] at this
              exact this.symm
            have hI := engineInsert_spec now tl s3
            rcases hi : engineInsert now tl s3 with ⟨rI, s4⟩
            rw [hi] at hI
            simp only at hI
            cases rI with
            | some err =>
              rcases hI.2.2 with ⟨_, h4⟩ | ⟨h4, _⟩
              · exact ⟨hI.1.trans hs3.1, Or.inl ⟨by simp, h4.trans hs3.2.2, hI.2.1.trans hs3.2.1⟩⟩
              · exact absurd h4 (by simp)
            | none =>
              simp only
              rcases hI.2.2 with ⟨h4, _⟩ | ⟨_, row, hr1, hr2, hr3, h4⟩
              · exact absurd rfl h4
              · refine ⟨?_, Or.inr ⟨hnone, row, hr1, hr2, hr3, ?_⟩⟩
                · exact (updateListLastUpdated_frame h l s4).1.trans (hI.1.trans hs3.1)
                · rw [(updateListLastUpdated_frame h l s4).2.1, h4, hs3.2.2]

/-- What `Delete` does to the tables: the teams are kept, and `team_list` is either kept
or loses exactly its matching rows. -/
theorem Delete_effect (h : Helpers TeamsTbl ListsTbl ListRec Team)
    (tl : TeamList) (s : Store TeamsTbl ListsTbl) :
    (TeamList.Delete h tl s).2.teams = s.teams ∧
    ((TeamList.Delete h tl s).2.team_list = s.team_list ∨
     (TeamList.Delete h tl s).2.team_list
       = s.team_list.filter (fun r => !TeamList.matches tl.TeamID tl.ListID r)) := by
  unfold TeamList.Delete
  rcases hT : GetTeamByID h tl.TeamID s with ⟨rT, s1⟩
  have hs1 : s1.teams = s.teams ∧ s1.lists = s.lists ∧ s1.team_list = s.team_list := by
    simp only [GetTeamByID, Prod.mk.injEq] at hT
    rw [← hT.2]; exact ⟨rfl, rfl, rfl⟩
  cases rT with
  | error err => exact ⟨hs1.1, Or.inl hs1.2.2⟩
  | ok t =>
    simp only
    have hG := engineGet_spec tl.TeamID tl.ListID s1
    rcases hg : engineGet tl.TeamID tl.ListID s1 with ⟨rG, s2⟩
    rw [hg] at hG
    simp only at hG
    have hs2 : s2.teams = s.teams ∧ s2.team_list = s.team_list :=
      ⟨hG.1.trans hs1.1, hG.2.2.1.trans hs1.2.2⟩
    cases rG with
    | error err => exact ⟨hs2.1, Or.inl hs2.2⟩
    | ok b =>
      cases b with
      | false => exact ⟨hs2.1, Or.inl hs2.2⟩
      | true =>
        simp only
        have hD := engineDelete_spec tl.TeamID tl.ListID s2
        rcases hd : engineDelete tl.TeamID tl.ListID s2 with ⟨rD, s3⟩
        rw [hd] at hD
        simp only at hD
        cases rD with
        | some err =>
          rcases hD.2.2 with ⟨_, h3⟩ | ⟨h3, _⟩
          · exact ⟨hD.1.trans hs2.1, Or.inl (h3.trans hs2.2)⟩
          · exact absurd h3 (by simp)
        | none =>
          simp only
          rcases hD.2.2 with ⟨h3, _⟩ | ⟨_, h3⟩
          · exact absurd rfl h3
          · refine ⟨(updateListLastUpdated_frame h _ s3).1.trans (hD.1.trans hs2.1), Or.inr ?_⟩
            rw [(updateListLastUpdated_frame h _ s3).2.1, h3, hs2.2]

/-- What `Update` does to the tables: the teams are kept, and `team_list` is either kept
or has `right` and `updated` of its matching rows rewritten in place. -/
theorem Update_effect (h : Helpers TeamsTbl ListsTbl ListRec Team) (now : Int)
    (tl : TeamList) (s : Store TeamsTbl ListsTbl) :
    (TeamList.Update h now tl s).2.teams = s.teams ∧
    ((TeamList.Update h now tl s).2.team_list = s.team_list ∨
     (TeamList.Update h now tl s).2.team_list
       = s.team_list.map (fun r =>
           if TeamList.matches tl.TeamID tl.ListID r then
             { r with Right := tl.Right, Updated := now }
           else r)) := by
  unfold TeamList.Update
  cases hv : Right.isValid tl.Right with
  | some err => exact ⟨rfl, Or.inl rfl⟩
  | none =>
    simp only
    have hU := engineUpdate_spec now tl s
    rcases hu : engineUpdate now tl s with ⟨rU, s1⟩
    rw [hu] at hU
    simp only at hU
    cases rU with
    | some err =>
      rcases hU.2.2 with ⟨_, h1⟩ | ⟨h1, _⟩
      · exact ⟨hU.1, Or.inl h1⟩
      · exact absurd h1 (by simp)
    | none =>
      simp only
      rcases hU.2.2 with ⟨h1, _⟩ | ⟨_, h1⟩
      · exact absurd rfl h1
      · refine ⟨(updateListLastUpdated_frame h _ s1).1.trans hU.1, Or.inr ?_⟩
        rw [(updateListLastUpdated_frame h _ s1).2.1, h1]

end ListTeamLemmas

/-- A relation stays unique when a row is appended for a pair that had none. -/
theorem UniquePairs_append (rows : List TeamList) (row : TeamList)
    (hu : UniquePairs rows)
    (hnone : rows.any (TeamList.matches row.TeamID row.ListID) = false) :
    UniquePairs (rows ++ [row]) := by
  intro t l
  rw [List.filter_append]
  by_cases hm : TeamList.matches t l row = true
  · have hkeys : row.TeamID = t ∧ row.ListID = l := by
      simpa [TeamList.matches] using hm
    have hempty : rows.filter (TeamList.matches t l) = [] := by
      rw [List.filter_eq_nil_iff]
      intro r hr hr2
      rw [← hkeys.1, ← hkeys.2] at hr2
      have : rows.any (TeamList.matches row.TeamID row.ListID) = true :=
        List.any_eq_true.mpr ⟨r, hr, hr2⟩
      rw [hnone] at this
      exact Bool.noConfusion this
    rw [hempty]
    simp [List.filter_cons, hm]
  · have hsingle : [row].filter (TeamList.matches t l) = [] := by
      simp [List.filter_cons, hm]
    rw [hsingle, List.append_nil]
    exact hu t l

/-- A relation stays unique when rows are removed. -/
theorem UniquePairs_filter (rows : List TeamList) (p : TeamList → Bool)
    (hu : UniquePairs rows) : UniquePairs (rows.filter p) := by
  intro t l
  have hsub : ((rows.filter p).filter (TeamList.matches t l)).Sublist
      (rows.filter (TeamList.matches t l)) :=
    (List.filter_sublist rows).filter _
  exact le_trans hsub.length_le (hu t l)

/-- A relation stays unique when rows are rewritten without touching their keys. -/
theorem UniquePairs_map (rows : List TeamList) (f : TeamList → TeamList)
    (hkeys : ∀ r, (f r).TeamID = r.TeamID ∧ (f r).ListID = r.ListID)
    (hu : UniquePairs rows) : UniquePairs (rows.map f) := by
  intro t l
  rw [List.filter_map, List.length_map]
  have hsame : (TeamList.matches t l ∘ f) = TeamList.matches t l := by
    funext r
    simp [TeamList.matches, (hkeys r).1, (hkeys r).2]
  rw [hsame]
  exact hu t l

section ListTeamRuns
variable {TeamsTbl ListsTbl ListRec Team : Type}

/-- On a healthy store where the team exists and is on the list, `Delete` removes the
matching rows and leaves the teams and the health of the store as they were. -/
theorem Delete_present (h : Helpers TeamsTbl ListsTbl ListRec Team) (tl : TeamList)
    (s : Store TeamsTbl ListsTbl) (t : Team)
    (hteam : h.GetTeamByID s.teams tl.TeamID = Except.ok t)
    (hrel : s.team_list.any (TeamList.matches tl.TeamID tl.ListID) = true)
    (hs : s.healthy) :
    (TeamList.Delete h tl s).2.team_list
      = s.team_list.filter (fun r => !TeamList.matches tl.TeamID tl.ListID r) ∧
    (TeamList.Delete h tl s).2.teams = s.teams ∧
    (TeamList.Delete h tl s).2.healthy := by
  unfold TeamList.Delete
  simp only [GetTeamByID, hteam]
  have hs1 : (s.record (StoreCall.GetTeamByID tl.TeamID)).healthy := hs
  have hG := engineGet_healthy tl.TeamID tl.ListID _ hs1
  have hGs := engineGet_spec tl.TeamID tl.ListID (s.record (StoreCall.GetTeamByID tl.TeamID))
  rcases hg : engineGet tl.TeamID tl.ListID (s.record (StoreCall.GetTeamByID tl.TeamID))
    with ⟨rG, s2⟩
  rw [hg] at hG hGs
  simp only [Store.record] at hG hGs
  obtain ⟨hG1, hG2⟩ := hG
  rw [hrel] at hG1
  subst hG1
  simp only
  have hD := engineDelete_healthy tl.TeamID tl.ListID s2 hG2
  have hDs := engineDelete_spec tl.TeamID tl.ListID s2
  rcases hd : engineDelete tl.TeamID tl.ListID s2 with ⟨rD, s3⟩
  rw [hd] at hD hDs
  simp only at hD hDs
  obtain ⟨hD1, hD2, hD3⟩ := hD
  subst hD1
  simp only
  refine ⟨?_, ?_, ?_⟩
  · rw [(updateListLastUpdated_frame h _ s3).2.1, hD2, hGs.2.2.1]
  · rw [(updateListLastUpdated_frame h _ s3).1, hDs.1, hGs.1]
  · intro f hf
    rw [(updateListLastUpdated_frame h _ s3).2.2] at hf
    exact hD3 f hf

/-- On a healthy store where the team exists and is not on the list, `Delete` answers
`ErrTeamDoesNotHaveAccessToList` and keeps every table. -/
theorem Delete_absent (h : Helpers TeamsTbl ListsTbl ListRec Team) (tl : TeamList)
    (s : Store TeamsTbl ListsTbl) (t : Team)
    (hteam : h.GetTeamByID s.teams tl.TeamID = Except.ok t)
    (hrel : s.team_list.any (TeamList.matches tl.TeamID tl.ListID) = false)
    (hs : s.healthy) :
    (TeamList.Delete h tl s).1
      = some (Error.ErrTeamDoesNotHaveAccessToList tl.TeamID tl.ListID) ∧
    (TeamList.Delete h tl s).2.team_list = s.team_list ∧
    (TeamList.Delete h tl s).2.teams = s.teams ∧
    (TeamList.Delete h tl s).2.lists = s.lists := by
  unfold TeamList.Delete
  simp only [GetTeamByID, hteam]
  have hs1 : (s.record (StoreCall.GetTeamByID tl.TeamID)).healthy := hs
  have hG := engineGet_healthy tl.TeamID tl.ListID _ hs1
  have hGs := engineGet_spec tl.TeamID tl.ListID (s.record (StoreCall.GetTeamByID tl.TeamID))
  rcases hg : engineGet tl.TeamID tl.ListID (s.record (StoreCall.GetTeamByID tl.TeamID))
    with ⟨rG, s2⟩
  rw [hg] at hG hGs
  simp only [Store.record] at hG hGs
  obtain ⟨hG1, _⟩ := hG
  rw [hrel] at hG1
  subst hG1
  exact ⟨rfl, hGs.2.2.1, hGs.1, hGs.2.1⟩

/-- One sharing call keeps the relation unique, whatever it returns. -/
theorem run_preserves_UniquePairs (h : Helpers TeamsTbl ListsTbl ListRec Team)
    (c : ShareCall) (s : Store TeamsTbl ListsTbl) (hu : UniquePairs s.team_list) :
    UniquePairs (c.run h s).team_list := by
  cases c with
  | create now tl a =>
    simp only [ShareCall.run]
    rcases (Create_effect h now tl a s).2 with ⟨_, hkeep, _⟩ | ⟨hnone, row, hr1, hr2, _, happ⟩
    · rw [hkeep]; exact hu
    · rw [happ]
      apply UniquePairs_append _ _ hu
      rw [hr1, hr2]; exact hnone
  | update now tl =>
    simp only [ShareCall.run]
    rcases (Update_effect h now tl s).2 with hkeep | hmap
    · rw [hkeep]; exact hu
    · rw [hmap]
      apply UniquePairs_map _ _ _ hu
      intro r
      by_cases hm : TeamList.matches tl.TeamID tl.ListID r = true
      · simp [hm]
      · simp [hm]
  | delete tl =>
    simp only [ShareCall.run]
    rcases (Delete_effect h tl s).2 with hkeep | hfil
    · rw [hkeep]; exact hu
    · rw [hfil]; exact UniquePairs_filter _ _ hu

end ListTeamRuns

/-- C5, as stated, fails.  In the sample store team 1 and list 1 exist; `Create` with
right Read succeeds, and the repeated `Create` with right Admin does not succeed: it
returns `ErrTeamAlreadyHasAccess{1, 1}`, and the one relation of (1, 1) keeps the right
Read instead of Admin. -/
theorem TeamList_Create_upsert_counterexample :
    (TeamList.Create sampleHelpers 100 (sampleShare RightRead) { ID := 2 } sampleStore).1
      = none ∧
    (TeamList.Create sampleHelpers 200 (sampleShare RightAdmin) { ID := 2 } sharedStore).1
      = some (Error.ErrTeamAlreadyHasAccess 1 1) ∧
    ((TeamList.Create sampleHelpers 200 (sampleShare RightAdmin) { ID := 2 }
        sharedStore).2.team_list.filter (TeamList.matches 1 1)).map (fun r => r.Right)
      = [RightRead] ∧
    ¬ ((TeamList.Create sampleHelpers 200 (sampleShare RightAdmin) { ID := 2 } sharedStore).1
        = none ∧
       ((TeamList.Create sampleHelpers 200 (sampleShare RightAdmin) { ID := 2 }
          sharedStore).2.team_list.filter (TeamList.matches 1 1)).map (fun r => r.Right)
        = [RightAdmin]) := by
  decide

/-- C5, amended.  When a `Create` for (T, L) has succeeded, a further `Create` for the
same (T, L) with any right does not succeed and inserts nothing: `team_list` is left as
the first call left it, holding exactly one row for (T, L), whose right is the one of
the first call.  If the right is valid, the team and the list are found and the engine
is healthy, the error is `ErrTeamAlreadyHasAccess{T, L}`. -/
theorem TeamList_Create_repeated_is_refused {TeamsTbl ListsTbl ListRec Team : Type}
    (h : Helpers TeamsTbl ListsTbl ListRec Team) (now1 now2 : Int) (tl1 tl2 : TeamList)
    (a1 a2 : Auth) (s : Store TeamsTbl ListsTbl)
    (hteam : tl2.TeamID = tl1.TeamID) (hlist : tl2.ListID = tl1.ListID)
    (hfirst : (TeamList.Create h now1 tl1 a1 s).1 = none) :
    (TeamList.Create h now2 tl2 a2 (TeamList.Create h now1 tl1 a1 s).2).1 ≠ none ∧
    (TeamList.Create h now2 tl2 a2 (TeamList.Create h now1 tl1 a1 s).2).2.team_list
      = (TeamList.Create h now1 tl1 a1 s).2.team_list ∧
    (∃ row : TeamList,
      (TeamList.Create h now1 tl1 a1 s).2.team_list.filter
          (TeamList.matches tl1.TeamID tl1.ListID) = [row] ∧
      row.Right = tl1.Right) ∧
    (Right.isValid tl2.Right = none →
      (∃ t, h.GetTeamByID (TeamList.Create h now1 tl1 a1 s).2.teams tl2.TeamID
          = Except.ok t) →
      (∃ l, h.GetSimpleByID (TeamList.Create h now1 tl1 a1 s).2.lists (h.newList tl2.ListID)
          = Except.ok l) →
      (TeamList.Create h now1 tl1 a1 s).2.healthy →
      (TeamList.Create h now2 tl2 a2 (TeamList.Create h now1 tl1 a1 s).2).1
        = some (Error.ErrTeamAlreadyHasAccess tl1.TeamID tl1.ListID)) := by
  obtain ⟨row, hr1, hr2, hr3, happ, hnone⟩ :
      ∃ row : TeamList, row.TeamID = tl1.TeamID ∧ row.ListID = tl1.ListID ∧
        row.Right = tl1.Right ∧
        (TeamList.Create h now1 tl1 a1 s).2.team_list = s.team_list ++ [row] ∧
        s.team_list.any (TeamList.matches tl1.TeamID tl1.ListID) = false := by
    rcases (Create_effect h now1 tl1 a1 s).2 with ⟨hne, _, _⟩ | ⟨hnone, row, hr1, hr2, hr3, happ⟩
    · exact absurd hfirst hne
    · exact ⟨row, hr1, hr2, hr3, happ, hnone⟩
  have hrow : TeamList.matches tl1.TeamID tl1.ListID row = true := by
    simp [TeamList.matches, hr1, hr2]
  have hpresent : (TeamList.Create h now1 tl1 a1 s).2.team_list.any
      (TeamList.matches tl2.TeamID tl2.ListID) = true := by
    rw [happ, hteam, hlist, List.any_append]
    simp [hrow]
  generalize (TeamList.Create h now1 tl1 a1 s).2 = s1 at happ hpresent ⊢
  have hsecond := (Create_effect h now2 tl2 a2 s1).2
  refine ⟨?_, ?_, ?_, ?_⟩
  · rcases hsecond with ⟨hne, _, _⟩ | ⟨habs, _⟩
    · exact hne
    · rw [hpresent] at habs; exact Bool.noConfusion habs
  · rcases hsecond with ⟨_, hkeep, _⟩ | ⟨habs, _⟩
    · exact hkeep
    · rw [hpresent] at habs; exact Bool.noConfusion habs
  · refine ⟨row, ?_, hr3⟩
    have hempty : s.team_list.filter (TeamList.matches tl1.TeamID tl1.ListID) = [] := by
      rw [List.filter_eq_nil_iff]
      intro r hr hm
      have : s.team_list.any (TeamList.matches tl1.TeamID tl1.ListID) = true :=
        List.any_eq_true.mpr ⟨r, hr, hm⟩
      rw [hnone] at this
      exact Bool.noConfusion this
    rw [happ, List.filter_append, hempty]
    simp [List.filter_cons, hrow]
  · rintro hv ⟨t, ht⟩ ⟨l, hl⟩ hs
    have hl2 : h.GetSimpleByID (s1.record (StoreCall.GetTeamByID tl2.TeamID)).lists
        (h.newList tl2.ListID) = Except.ok l := hl
    have hs2 : ((s1.record (StoreCall.GetTeamByID tl2.TeamID)).record
        (StoreCall.GetSimpleByID tl2.ListID)).healthy := hs
    have hG := (engineGet_healthy tl2.TeamID tl2.ListID _ hs2).1
    have hrows : ((s1.record (StoreCall.GetTeamByID tl2.TeamID)).record
        (StoreCall.GetSimpleByID tl2.ListID)).team_list = s1.team_list := rfl
    rw [hrows, hpresent] at hG
    rcases hg : engineGet tl2.TeamID tl2.ListID ((s1.record (StoreCall.GetTeamByID tl2.TeamID)).record
        (StoreCall.GetSimpleByID tl2.ListID)) with ⟨rG, s3⟩
    rw [hg] at hG
    simp only at hG
    subst hG
    unfold TeamList.Create
    simp only [hv, GetTeamByID, ht, GetSimpleByID, hl2, hg]
    rw [hteam, hlist]

/-- C5 amended, at the sample store: after team 1 was given Read on list 1, giving it
Admin is refused with `ErrTeamAlreadyHasAccess{1, 1}`. -/
theorem TeamList_Create_repeated_is_refused_witness :
    (TeamList.Create sampleHelpers 100 (sampleShare RightRead) { ID := 2 } sampleStore).1
      = none ∧
    (TeamList.Create sampleHelpers 200 (sampleShare RightAdmin) { ID := 2 }
      (TeamList.Create sampleHelpers 100 (sampleShare RightRead) { ID := 2 } sampleStore).2).1
      = some (Error.ErrTeamAlreadyHasAccess 1 1) :=
  ⟨by decide,
   (TeamList_Create_repeated_is_refused sampleHelpers 100 200 (sampleShare RightRead)
      (sampleShare RightAdmin) { ID := 2 } { ID := 2 } sampleStore rfl rfl (by decide)).2.2.2
      (by decide) ⟨1, rfl⟩ ⟨1, rfl⟩ (by decide)⟩

/-- C6. Grant uniqueness is an invariant: if every (team id, list id) pair has at most
one row, then after any sequence of `Create`, `Update` and `Delete` calls, each kept
whether it succeeded or failed, every pair still has at most one row. -/
theorem TeamList_calls_keep_pairs_unique {TeamsTbl ListsTbl ListRec Team : Type}
    (h : Helpers TeamsTbl ListsTbl ListRec Team) (cs : List ShareCall)
    (s : Store TeamsTbl ListsTbl) (hu : UniquePairs s.team_list) :
    UniquePairs (runCalls h cs s).team_list := by
  induction cs generalizing s with
  | nil => exact hu
  | cons c rest ih =>
    have hstep : runCalls h (c :: rest) s = runCalls h rest (c.run h s) := rfl
    rw [hstep]
    exact ih (c.run h s) (run_preserves_UniquePairs h c s hu)

/-- C6 at the sample store: share, share again, change the right, revoke, revoke
again, share with an invalid right. -/
theorem TeamList_calls_keep_pairs_unique_witness :
    UniquePairs sampleStore.team_list ∧
    UniquePairs (runCalls sampleHelpers
      [ShareCall.create 100 (sampleShare RightRead) { ID := 2 },
       ShareCall.create 200 (sampleShare RightAdmin) { ID := 2 },
       ShareCall.update 300 (sampleShare RightWrite),
       ShareCall.delete (sampleShare RightRead),
       ShareCall.delete (sampleShare RightRead),
       ShareCall.create 400 (sampleShare 99) { ID := 2 }] sampleStore).team_list :=
  ⟨by decide, TeamList_calls_keep_pairs_unique sampleHelpers _ sampleStore (by decide)⟩

/-- C7. An invalid right is rejected before the store is reached: when `Right.isValid`
fails with `e`, `Create` and `Update` return `e` and hand back the store they were
given, trace included: no lookup, no insert, no update, and the list's last-updated
time is not touched, whatever teams, lists and relations exist. -/
theorem TeamList_invalid_right_rejected {TeamsTbl ListsTbl ListRec Team : Type}
    (h : Helpers TeamsTbl ListsTbl ListRec Team) (now : Int) (tl : TeamList) (a : Auth)
    (s : Store TeamsTbl ListsTbl) (e : Error)
    (hv : Right.isValid tl.Right = some e) :
    TeamList.Create h now tl a s = (some e, s) ∧
    TeamList.Update h now tl s = (some e, s) := by
  constructor
  · unfold TeamList.Create
    simp only [hv]
  · unfold TeamList.Update
    simp only [hv]

/-- C7 at the sample store once shared: the right 99 is refused with
`ErrInvalidRight{99}` by both calls, and the store is the one given. -/
theorem TeamList_invalid_right_rejected_witness :
    Right.isValid (sampleShare 99).Right = some (Error.ErrInvalidRight 99) ∧
    TeamList.Create sampleHelpers 400 (sampleShare 99) { ID := 2 } sharedStore
      = (some (Error.ErrInvalidRight 99), sharedStore) ∧
    TeamList.Update sampleHelpers 400 (sampleShare 99) sharedStore
      = (some (Error.ErrInvalidRight 99), sharedStore) :=
  ⟨by decide,
   TeamList_invalid_right_rejected sampleHelpers 400 (sampleShare 99) { ID := 2 } sharedStore
     (Error.ErrInvalidRight 99) (by decide)⟩

/-- C8. A grant to a missing team or list is rejected at creation: with a valid right,
if the team lookup fails with `e` then `Create` returns `e`; otherwise, if the list
lookup fails with `e`, it returns `e`.  In both cases the store handed back is the one
given but for the lookups recorded in the trace: no row is inserted and every table is
unchanged. -/
theorem TeamList_Create_rejects_missing {TeamsTbl ListsTbl ListRec Team : Type}
    (h : Helpers TeamsTbl ListsTbl ListRec Team) (now : Int) (tl : TeamList) (a : Auth)
    (s : Store TeamsTbl ListsTbl)
    (hv : Right.isValid tl.Right = none) :
    (∀ e : Error, h.GetTeamByID s.teams tl.TeamID = Except.error e →
      TeamList.Create h now tl a s
        = (some e, { s with trace := s.trace ++ [StoreCall.GetTeamByID tl.TeamID] })) ∧
    (∀ (t : Team) (e : Error), h.GetTeamByID s.teams tl.TeamID = Except.ok t →
      h.GetSimpleByID s.lists (h.newList tl.ListID) = Except.error e →
      TeamList.Create h now tl a s
        = (some e, { s with trace := s.trace ++ [StoreCall.GetTeamByID tl.TeamID] ++
              [StoreCall.GetSimpleByID tl.ListID] })) := by
  constructor
  · intro e he
    unfold TeamList.Create
    simp only [hv, GetTeamByID, he, Store.record]
  · intro t e ht hl
    unfold TeamList.Create
    simp only [hv, GetTeamByID, ht, GetSimpleByID, Store.record, hl]

/-- C8 at the sample store: team 5 does not exist; team 1 exists and list 9 does not. -/
theorem TeamList_Create_rejects_missing_witness :
    TeamList.Create sampleHelpers 100
        { ID := 0, TeamID := 5, ListID := 1, Right := RightWrite, Created := 0, Updated := 0 }
        { ID := 2 } sampleStore
      = (some (Error.external "team does not exist"),
         { sampleStore with trace := [StoreCall.GetTeamByID 5] }) ∧
    TeamList.Create sampleHelpers 100
        { ID := 0, TeamID := 1, ListID := 9, Right := RightWrite, Created := 0, Updated := 0 }
        { ID := 2 } sampleStore
      = (some (Error.external "list does not exist"),
         { sampleStore with trace := [StoreCall.GetTeamByID 1, StoreCall.GetSimpleByID 9] }) :=
  ⟨(TeamList_Create_rejects_missing sampleHelpers 100
      { ID := 0, TeamID := 5, ListID := 1, Right := RightWrite, Created := 0, Updated := 0 }
      { ID := 2 } sampleStore (by decide)).1 (Error.external "team does not exist") rfl,
   (TeamList_Create_rejects_missing sampleHelpers 100
      { ID := 0, TeamID := 1, ListID := 9, Right := RightWrite, Created := 0, Updated := 0 }
      { ID := 2 } sampleStore (by decide)).2 1 (Error.external "list does not exist") rfl rfl⟩

/-- C9. Idempotent revoke: in a healthy store where team T exists and has a relation to
list L, `Delete` for (T, L) leaves `team_list` without any row for (T, L) (and with all
its other rows), and a second `Delete` for (T, L) right after returns
`ErrTeamDoesNotHaveAccessToList{TeamID: T, ListID: L}` and leaves the teams, the lists
and the rows of `team_list` exactly as the first call left them. -/
theorem TeamList_Delete_twice {TeamsTbl ListsTbl ListRec Team : Type}
    (h : Helpers TeamsTbl ListsTbl ListRec Team) (tl : TeamList)
    (s : Store TeamsTbl ListsTbl) (t : Team)
    (hteam : h.GetTeamByID s.teams tl.TeamID = Except.ok t)
    (hrel : s.team_list.any (TeamList.matches tl.TeamID tl.ListID) = true)
    (hs : s.healthy) :
    (TeamList.Delete h tl s).2.team_list
      = s.team_list.filter (fun r => !TeamList.matches tl.TeamID tl.ListID r) ∧
    (∀ r ∈ (TeamList.Delete h tl s).2.team_list,
      ¬ (r.TeamID = tl.TeamID ∧ r.ListID = tl.ListID)) ∧
    (TeamList.Delete h tl (TeamList.Delete h tl s).2).1
      = some (Error.ErrTeamDoesNotHaveAccessToList tl.TeamID tl.ListID) ∧
    (TeamList.Delete h tl (TeamList.Delete h tl s).2).2.team_list
      = (TeamList.Delete h tl s).2.team_list ∧
    (TeamList.Delete h tl (TeamList.Delete h tl s).2).2.teams
      = (TeamList.Delete h tl s).2.teams ∧
    (TeamList.Delete h tl (TeamList.Delete h tl s).2).2.lists
      = (TeamList.Delete h tl s).2.lists := by
  obtain ⟨hrows, hteams, hhealthy⟩ := Delete_present h tl s t hteam hrel hs
  have hgone : ∀ r ∈ (TeamList.Delete h tl s).2.team_list,
      TeamList.matches tl.TeamID tl.ListID r = false := by
    intro r hr
    rw [hrows, List.mem_filter] at hr
    simpa using hr.2
  have hnone : (TeamList.Delete h tl s).2.team_list.any
      (TeamList.matches tl.TeamID tl.ListID) = false := by
    rw [List.any_eq_false]
    intro r hr
    rw [hgone r hr]
    exact Bool.false_ne_true
  have hteam2 : h.GetTeamByID (TeamList.Delete h tl s).2.teams tl.TeamID = Except.ok t := by
    rw [hteams]; exact hteam
  obtain ⟨herr, hkeep, hkeepT, hkeepL⟩ :=
    Delete_absent h tl (TeamList.Delete h tl s).2 t hteam2 hnone hhealthy
  refine ⟨hrows, ?_, herr, hkeep, hkeepT, hkeepL⟩
  intro r hr hkeys
  have := hgone r hr
  simp [TeamList.matches, hkeys.1, hkeys.2] at this

/-- C9 at the sample store once shared: the first revoke empties the relation, the
second answers `ErrTeamDoesNotHaveAccessToList{1, 1}`. -/
theorem TeamList_Delete_twice_witness :
    (TeamList.Delete sampleHelpers (sampleShare RightRead) sharedStore).1 = none ∧
    (TeamList.Delete sampleHelpers (sampleShare RightRead) sharedStore).2.team_list = [] ∧
    (TeamList.Delete sampleHelpers (sampleShare RightRead)
      (TeamList.Delete sampleHelpers (sampleShare RightRead) sharedStore).2).1
      = some (Error.ErrTeamDoesNotHaveAccessToList 1 1) ∧
    (TeamList.Delete sampleHelpers (sampleShare RightRead)
      (TeamList.Delete sampleHelpers (sampleShare RightRead) sharedStore).2).2.team_list
      = (TeamList.Delete sampleHelpers (sampleShare RightRead) sharedStore).2.team_list :=
  have hw := TeamList_Delete_twice sampleHelpers (sampleShare RightRead) sharedStore 1 rfl
    (by decide) (by decide)
  ⟨by decide, by decide, hw.2.2.1, hw.2.2.2.1⟩

/-- C10 fails on the code.  In the sample store no team 7 exists and team 7 has no
relation to list 1, yet `Update` for (team 7, list 1) with the valid right ReadWrite
returns nil: it makes no team, list or relation lookup (its trace holds the update
statement and the touch of the list only) and changes no row.  `Delete`, on the same
input, reports the missing team. -/
theorem TeamList_Update_missing_team_returns_nil :
    sampleHelpers.GetTeamByID sampleStore.teams 7
      = Except.error (Error.external "team does not exist") ∧
    sampleStore.team_list.any (TeamList.matches 7 1) = false ∧
    Right.isValid RightWrite = none ∧
    (TeamList.Update sampleHelpers 300
      { ID := 0, TeamID := 7, ListID := 1, Right := RightWrite, Created := 0, Updated := 0 }
      sampleStore).1 = none ∧
    (TeamList.Update sampleHelpers 300
      { ID := 0, TeamID := 7, ListID := 1, Right := RightWrite, Created := 0, Updated := 0 }
      sampleStore).2.trace
      = [StoreCall.Update
          { ID := 0, TeamID := 7, ListID := 1, Right := RightWrite, Created := 0,
            Updated := 0 },
         StoreCall.updateListLastUpdated] ∧
    (TeamList.Update sampleHelpers 300
      { ID := 0, TeamID := 7, ListID := 1, Right := RightWrite, Created := 0, Updated := 0 }
      sampleStore).2.team_list = sampleStore.team_list ∧
    (TeamList.Delete sampleHelpers
      { ID := 0, TeamID := 7, ListID := 1, Right := RightWrite, Created := 0, Updated := 0 }
      sampleStore).1 = some (Error.external "team does not exist") :=
  ⟨rfl, by decide, by decide, by decide, by decide, by decide, by decide⟩


/-! ## Theorems: `routes/api/v1/caldav.go` -/

/-- A value inside the range of `int64` is its own wrapping. -/
theorem wrapInt64_of_inRange (n : Int) (hlo : -(2 : Int) ^ 63 ≤ n) (hhi : n < 2 ^ 63) :
    wrapInt64 n = n := by
  unfold wrapInt64
  rw [Int.emod_eq_of_lt (by omega) (by omega)]
  omega

/-- The loop body appends to what has been collected. -/
theorem caldavStep_append (acc : List Event) (t : ListTask) :
    caldavStep acc t = acc ++ caldavStep [] t := by
  unfold caldavStep
  split <;> simp

/-- The loop started on collected events appends the events of the remaining tasks. -/
theorem foldl_caldavStep (tasks : List ListTask) (acc : List Event) :
    tasks.foldl caldavStep acc = acc ++ caldavEvents tasks := by
  induction tasks generalizing acc with
  | nil => simp [caldavEvents]
  | cons t rest ih =>
    simp only [caldavEvents, List.foldl_cons]
    rw [ih (caldavStep acc t), ih (caldavStep [] t), caldavStep_append acc t,
      List.append_assoc]

/-- The events of a list of tasks: those of the first task, then those of the rest. -/
theorem caldavEvents_cons (t : ListTask) (rest : List ListTask) :
    caldavEvents (t :: rest) = caldavStep [] t ++ caldavEvents rest := by
  simp only [caldavEvents, List.foldl_cons]
  exact foldl_caldavStep rest (caldavStep [] t)

/-- The event built for a task with a due date is the documented one. -/
theorem caldavStep_due (t : ListTask) (hdue : t.DueDateUnix ≠ 0) :
    ∃ e : Event, caldavStep [] t = [e] ∧ exportsAs t e := by
  unfold caldavStep
  rw [if_pos hdue]
  by_cases hrem : t.ReminderUnix ≠ 0
  · refine ⟨_, by simp only [if_pos hrem, List.nil_append]; rfl, ?_⟩
    refine ⟨rfl, rfl, rfl, rfl, rfl, ?_, fun _ => rfl, fun h0 => absurd h0 hrem⟩
    intro hlo hhi
    exact wrapInt64_of_inRange _ (by unfold hour; omega) (by unfold hour; omega)
  · refine ⟨_, by simp only [if_neg hrem, List.nil_append]; rfl, ?_⟩
    refine ⟨rfl, rfl, rfl, rfl, rfl, ?_, fun h1 => absurd h1 hrem, fun _ => rfl⟩
    intro hlo hhi
    exact wrapInt64_of_inRange _ (by unfold hour; omega) (by unfold hour; omega)

/-- C11. The CalDAV export holds the tasks with a due date and a reminder exactly when
the task has one: once the credentials are accepted and the tasks are fetched, the
handler answers 200 with `caldav.ParseEvents` applied to the calendar's configuration
and to events that are, in the order of the tasks, one per task with `DueDateUnix != 0`
and none for the others; each event has Summary = Text, Description = Description,
TimestampUnix = Updated, StartUnix = DueDateUnix, EndUnix = DueDateUnix + 3600 (the
`int64` sum, which is the integer sum as long as it fits), and as Alarms the single
alarm at ReminderUnix when `ReminderUnix != 0`, none otherwise. -/
theorem Caldav_exports_due_tasks (d : CaldavDeps) (user pass : String) (u : User)
    (tasks : List ListTask)
    (hcred : d.CheckUserCredentials { Username := user, Password := pass } = (u, none))
    (htasks : d.GetTasksByUser "" u (-1) = (tasks, none)) :
    (∃ events : List Event,
      Caldav d user pass true
        = Reply.text 200
            (d.ParseEvents
              { Name := "Vikunja Calendar for " ++ u.Username, ProdID := "Vikunja Todo App" }
              events) [] ∧
      events = caldavEvents tasks ∧
      List.Forall₂ exportsAs (tasks.filter (fun t => t.DueDateUnix != 0)) events) := by
  refine ⟨caldavEvents tasks, ?_, rfl, ?_⟩
  · unfold Caldav
    simp only [hcred, htasks]
    rfl
  · clear hcred htasks
    induction tasks with
    | nil => exact List.Forall₂.nil
    | cons t rest ih =>
      rw [caldavEvents_cons]
      by_cases hdue : t.DueDateUnix ≠ 0
      · obtain ⟨e, he, hexp⟩ := caldavStep_due t hdue
        have hkeep : (t :: rest).filter (fun t => t.DueDateUnix != 0)
            = t :: rest.filter (fun t => t.DueDateUnix != 0) := by
          simp [List.filter_cons, hdue]
        rw [hkeep, he]
        exact List.Forall₂.cons hexp ih
      · have hzero : t.DueDateUnix = 0 := not_not.mp hdue
        have hdrop : (t :: rest).filter (fun t => t.DueDateUnix != 0)
            = rest.filter (fun t => t.DueDateUnix != 0) := by
          simp [List.filter_cons, hzero]
        have hnone : caldavStep [] t = [] := by
          unfold caldavStep
          rw [if_neg hdue]
        rw [hdrop, hnone]
        exact ih

/-- C11 at the sample account: of the three tasks, the first and the third have a due
date, and only the first has a reminder. -/
theorem Caldav_exports_due_tasks_witness :
    ∃ events : List Event,
      Caldav sampleCaldav "ann" "pw" true
        = Reply.text 200
            (sampleCaldav.ParseEvents
              { Name := "Vikunja Calendar for " ++ "ann", ProdID := "Vikunja Todo App" }
              events) [] ∧
      events = caldavEvents
        [{ Text := "a", Description := "", Updated := 5, DueDateUnix := 1000,
           ReminderUnix := 900 },
         { Text := "b", Description := "", Updated := 6, DueDateUnix := 0, ReminderUnix := 7 },
         { Text := "c", Description := "", Updated := 7, DueDateUnix := 2000,
           ReminderUnix := 0 }] ∧
      List.Forall₂ exportsAs
        [{ Text := "a", Description := "", Updated := 5, DueDateUnix := 1000,
           ReminderUnix := 900 },
         { Text := "c", Description := "", Updated := 7, DueDateUnix := 2000,
           ReminderUnix := 0 }] events :=
  Caldav_exports_due_tasks sampleCaldav "ann" "pw"
    { ID := 1, Username := "ann", Password := "", Email := "" } _ rfl rfl

/-! ## Theorems: `models/user_add_update.go` -/

/-- The update statement records itself; it either fails and keeps the rows, or succeeds
and rewrites the non-zero fields into the row with the id; on a healthy store it
succeeds. -/
theorem engineUpdateUser_spec (id : Int) (u : User) (s : UserStore) :
    (engineUpdateUser id u s).2.trace = s.trace ++ [UserCall.Update id u] ∧
    (((engineUpdateUser id u s).1 ≠ none ∧ (engineUpdateUser id u s).2.users = s.users) ∨
     ((engineUpdateUser id u s).1 = none ∧
        (engineUpdateUser id u s).2.users
          = s.users.map (fun r =>
              if r.ID == id then
                { r with Username := if u.Username = "" then r.Username else u.Username,
                         Password := if u.Password = "" then r.Password else u.Password,
                         Email := if u.Email = "" then r.Email else u.Email }
              else r))) ∧
    (s.healthy → (engineUpdateUser id u s).1 = none) := by
  unfold engineUpdateUser UserStore.nextFault UserStore.record UserStore.healthy
  cases hf : s.faults with
  | nil => simp
  | cons f rest =>
    cases f with
    | none => simp
    | some e => simp

/-- Every path of `CreateUser` that returns an error returns the zero user. -/
theorem CreateUser_error_zero (d : UserDeps) (user : User) (s : UserStore) :
    (CreateUser d user s).1.2 ≠ none → (CreateUser d user s).1.1 = User.zero := by
  unfold CreateUser
  simp only
  repeat' split
  all_goals first
    | (intro _; rfl)
    | (intro hne; exact absurd rfl hne)

/-- C12. `CreateUser` inserts only when its checks pass.  With an empty Username or
Password it returns `(User{}, ErrNoUsernamePassword{})` and the store it was given, no
lookup made.  Otherwise, if the lookup by username finds a user, it returns
`(User{}, ErrUsernameExists{id, username})` of the user found; otherwise, if the lookup
by email finds one, `(User{}, ErrUserEmailExists{id, email})`.  In these cases the store
handed back differs from the one given by the recorded lookups only, so no row is
inserted.  And whenever an error is returned, the user returned is the zero value. -/
theorem CreateUser_rejects_without_insert (d : UserDeps) (user : User) (s : UserStore) :
    ((user.Password = "" ∨ user.Username = "") →
      CreateUser d user s = ((User.zero, some UserError.ErrNoUsernamePassword), s)) ∧
    (user.Password ≠ "" → user.Username ≠ "" →
      ∀ (existing : User) (err : Option UserError),
        d.GetUser s.users { User.zero with Username := user.Username }
          = (existing, true, err) →
        lookupFailure d err = none →
        CreateUser d user s
          = ((User.zero, some (UserError.ErrUsernameExists existing.ID existing.Username)),
             { s with trace := s.trace ++
                 [UserCall.GetUser { User.zero with Username := user.Username }] })) ∧
    (user.Password ≠ "" → user.Username ≠ "" →
      ∀ (other existing : User) (err1 err2 : Option UserError),
        d.GetUser s.users { User.zero with Username := user.Username }
          = (other, false, err1) →
        lookupFailure d err1 = none →
        d.GetUser s.users { User.zero with Email := user.Email } = (existing, true, err2) →
        lookupFailure d err2 = none →
        CreateUser d user s
          = ((User.zero, some (UserError.ErrUserEmailExists existing.ID existing.Email)),
             { s with trace := s.trace ++
                 [UserCall.GetUser { User.zero with Username := user.Username }] ++
                 [UserCall.GetUser { User.zero with Email := user.Email }] })) ∧
    ((CreateUser d user s).1.2 ≠ none → (CreateUser d user s).1.1 = User.zero) := by
  refine ⟨?_, ?_, ?_, CreateUser_error_zero d user s⟩
  · intro hempty
    unfold CreateUser
    simp only [if_pos hempty]
  · intro hp hu existing err hget hpass
    have hfull : ¬ (user.Password = "" ∨ user.Username = "") := by
      rintro (h | h)
      · exact hp h
      · exact hu h
    unfold CreateUser
    simp only [if_neg hfull, GetUser, hget, hpass, UserStore.record, if_true]
  · intro hp hu other existing err1 err2 hget1 hpass1 hget2 hpass2
    have hfull : ¬ (user.Password = "" ∨ user.Username = "") := by
      rintro (h | h)
      · exact hp h
      · exact hu h
    simp only at hget1 hget2
    unfold CreateUser
    simp only [if_neg hfull, GetUser, UserStore.record, hget1, hpass1, hget2, hpass2,
      if_true, Bool.false_eq_true, if_false]

/-- C12 at the sample store: no password; a taken username; a taken email. -/
theorem CreateUser_rejects_without_insert_witness :
    CreateUser sampleUserDeps { ID := 0, Username := "bob", Password := "", Email := "" }
        sampleUsers
      = ((User.zero, some UserError.ErrNoUsernamePassword), sampleUsers) ∧
    CreateUser sampleUserDeps { ID := 0, Username := "ann", Password := "s", Email := "b@x.org" }
        sampleUsers
      = ((User.zero, some (UserError.ErrUsernameExists 1 "ann")),
         { sampleUsers with trace := [UserCall.GetUser { User.zero with Username := "ann" }] }) ∧
    CreateUser sampleUserDeps
        { ID := 0, Username := "bob", Password := "s", Email := "ann@x.org" } sampleUsers
      = ((User.zero, some (UserError.ErrUserEmailExists 1 "ann@x.org")),
         { sampleUsers with trace :=
             [UserCall.GetUser { User.zero with Username := "bob" },
              UserCall.GetUser { User.zero with Email := "ann@x.org" }] }) :=
  ⟨(CreateUser_rejects_without_insert sampleUserDeps
      { ID := 0, Username := "bob", Password := "", Email := "" } sampleUsers).1
      (Or.inl rfl),
   (CreateUser_rejects_without_insert sampleUserDeps
      { ID := 0, Username := "ann", Password := "s", Email := "b@x.org" } sampleUsers).2.1
      (by decide) (by decide)
      { ID := 1, Username := "ann", Password := "bcrypt:pw", Email := "ann@x.org" } none
      (by decide) (by decide),
   (CreateUser_rejects_without_insert sampleUserDeps
      { ID := 0, Username := "bob", Password := "s", Email := "ann@x.org" }
      sampleUsers).2.2.1
      (by decide) (by decide) User.zero
      { ID := 1, Username := "ann", Password := "bcrypt:pw", Email := "ann@x.org" }
      (some (UserError.ErrUserDoesNotExist 0)) none
      (by decide) (by decide) (by decide) (by decide)⟩

/-- When the user is found, `UpdateUser` is the update statement for the record it
builds, followed by the lookup of the result. -/
theorem UpdateUser_found (d : UserDeps) (user u0 : User) (s : UserStore)
    (hfound : d.GetUserByID s.users user.ID = (u0, true, none)) :
    UpdateUser d user s
      = match engineUpdateUser user.ID
            { user with Username := if user.Username = "" then u0.Username else user.Username,
                        Password := u0.Password }
            (s.record (UserCall.GetUserByID user.ID)) with
        | (some e, s2) => ((User.zero, some e), s2)
        | (none, s2) =>
          match GetUserByID d user.ID s2 with
          | ((_, _, some e), s3) => ((User.zero, some e), s3)
          | ((updatedUser, _, none), s3) => ((updatedUser, none), s3) := by
  unfold UpdateUser
  simp only [GetUserByID, hfound, if_true]
  by_cases hname : user.Username = ""
  · simp only [hname, if_true]
  · simp only [hname, if_false]

/-- C13. `UpdateUser` never changes a password and never blanks a username.  When the
lookup by id finds the stored record `u0`, the one record written is the input with
Password = `u0.Password`, whatever password the input carries, and with Username =
`u0.Username` when the input Username is empty and the input Username otherwise; no
other write is made, the passwords and ids of all rows stay as they were, and once the
statement has run the row of that id carries that username.  When the lookup reports
that no user has the id, nothing is written and `(User{}, ErrUserDoesNotExist{ID})` is
returned; when the lookup itself fails, nothing is written and its error is returned. -/
theorem UpdateUser_keeps_password_and_username (d : UserDeps) (user : User) (s : UserStore) :
    (∀ u0 : User, d.GetUserByID s.users user.ID = (u0, true, none) →
      (∃ rest : List UserCall,
        (UpdateUser d user s).2.trace
          = s.trace ++ [UserCall.GetUserByID user.ID,
              UserCall.Update user.ID
                { user with
                    Username := if user.Username = "" then u0.Username else user.Username,
                    Password := u0.Password }] ++ rest ∧
        ∀ c ∈ rest, c = UserCall.GetUserByID user.ID) ∧
      ((∀ r ∈ s.users, r.ID = user.ID → r = u0) →
        (UpdateUser d user s).2.users.map (fun r => r.Password)
          = s.users.map (fun r => r.Password) ∧
        (UpdateUser d user s).2.users.map (fun r => r.ID) = s.users.map (fun r => r.ID) ∧
        (s.healthy → ∀ r ∈ (UpdateUser d user s).2.users, r.ID = user.ID →
          r.Username = if user.Username = "" then u0.Username else user.Username))) ∧
    (∀ u1 : User, d.GetUserByID s.users user.ID = (u1, false, none) →
      UpdateUser d user s
        = ((User.zero, some (UserError.ErrUserDoesNotExist user.ID)),
           { s with trace := s.trace ++ [UserCall.GetUserByID user.ID] })) ∧
    (∀ (u1 : User) (found : Bool) (e : UserError),
      d.GetUserByID s.users user.ID = (u1, found, some e) →
      UpdateUser d user s
        = ((User.zero, some e),
           { s with trace := s.trace ++ [UserCall.GetUserByID user.ID] })) := by
  refine ⟨?_, ?_, ?_⟩
  · intro u0 hfound
    rw [UpdateUser_found d user u0 s hfound]
    have hspec := engineUpdateUser_spec user.ID
      { user with Username := if user.Username = "" then u0.Username else user.Username,
                  Password := u0.Password }
      (s.record (UserCall.GetUserByID user.ID))
    rcases hres : engineUpdateUser user.ID
      { user with Username := if user.Username = "" then u0.Username else user.Username,
                  Password := u0.Password }
      (s.record (UserCall.GetUserByID user.ID)) with ⟨r, s2⟩
    rw [hres] at hspec
    simp only [UserStore.record] at hspec
    obtain ⟨htrace, hrows, hhealthy⟩ := hspec
    have hfinal : ∀ out : (User × Option UserError) × UserStore,
        out = (match GetUserByID d user.ID s2 with
          | ((_, _, some e), s3) => ((User.zero, some e), s3)
          | ((updatedUser, _, none), s3) => ((updatedUser, none), s3)) →
        out.2.users = s2.users ∧ out.2.trace = s2.trace ++ [UserCall.GetUserByID user.ID] := by
      intro out hout
      simp only [GetUserByID] at hout
      rcases hlook : d.GetUserByID s2.users user.ID with ⟨uu, ex, er⟩
      rw [hlook] at hout
      cases er with
      | none => rw [hout]; exact ⟨rfl, rfl⟩
      | some e => rw [hout]; exact ⟨rfl, rfl⟩
    cases r with
    | some e =>
      simp only
      have hkeep : s2.users = s.users := by
        rcases hrows with ⟨_, hk⟩ | ⟨hn, _⟩
        · exact hk
        · exact absurd hn (by simp)
      refine ⟨⟨[], by rw [htrace]; simp, fun c hc => absurd hc (List.not_mem_nil c)⟩, ?_⟩
      intro _
      refine ⟨by rw [hkeep], by rw [hkeep], ?_⟩
      intro hs
      exact absurd (hhealthy hs) (by simp)
    | none =>
      simp only
      obtain ⟨husers, htr⟩ := hfinal _ rfl
      have hmap : s2.users = s.users.map (fun r =>
          if r.ID == user.ID then
            { r with
                Username :=
                  if (if user.Username = "" then u0.Username else user.Username) = ""
                  then r.Username
                  else (if user.Username = "" then u0.Username else user.Username),
                Password := if u0.Password = "" then r.Password else u0.Password,
                Email := if user.Email = "" then r.Email else user.Email }
          else r) := by
        rcases hrows with ⟨hn, _⟩ | ⟨_, hm⟩
        · exact absurd rfl hn
        · exact hm
      refine ⟨⟨[UserCall.GetUserByID user.ID], by rw [htr, htrace]; simp,
        fun c hc => by simpa using hc⟩, ?_⟩
      intro hstored
      rw [husers, hmap]
      refine ⟨?_, ?_, ?_⟩
      · rw [List.map_map]
        apply List.map_congr_left
        intro r hr
        by_cases hid : r.ID = user.ID
        · have hr0 : r = u0 := hstored r hr hid
          subst hr0
          by_cases hpw : r.Password = "" <;> simp [hid, hpw]
        · simp [hid]
      · rw [List.map_map]
        apply List.map_congr_left
        intro r _
        by_cases hid : r.ID = user.ID <;> simp [hid]
      · intro _ r hr hid
        rw [List.mem_map] at hr
        obtain ⟨r0, hr0, hrr⟩ := hr
        by_cases hid0 : r0.ID = user.ID
        · have h0 : r0 = u0 := hstored r0 hr0 hid0
          subst h0
          rw [← hrr]
          by_cases hname : user.Username = ""
          · by_cases hn0 : r0.Username = "" <;> simp [hid0, hname, hn0]
          · simp [hid0, hname]
        · rw [← hrr] at hid
          simp [hid0] at hid
  · intro u1 hnot
    unfold UpdateUser
    simp only [GetUserByID, hnot, UserStore.record, Bool.false_eq_true, if_false]
  · intro u1 found e hfail
    unfold UpdateUser
    simp only [GetUserByID, hfail, UserStore.record]

/-- C13 at the sample store: user 1 is sent without a username and with a new password,
and keeps both; user 9 does not exist. -/
theorem UpdateUser_keeps_password_and_username_witness :
    (UpdateUser sampleUserDeps { ID := 1, Username := "", Password := "hack", Email := "n@x.org" }
        sampleUsers).2.users.map (fun r => r.Password) = ["bcrypt:pw"] ∧
    (∀ r ∈ (UpdateUser sampleUserDeps
        { ID := 1, Username := "", Password := "hack", Email := "n@x.org" }
        sampleUsers).2.users, r.ID = 1 → r.Username = "ann") ∧
    UpdateUser sampleUserDeps { ID := 9, Username := "eve", Password := "hack", Email := "" }
        sampleUsers
      = ((User.zero, some (UserError.ErrUserDoesNotExist 9)),
         { sampleUsers with trace := [UserCall.GetUserByID 9] }) :=
  have hw := (UpdateUser_keeps_password_and_username sampleUserDeps
    { ID := 1, Username := "", Password := "hack", Email := "n@x.org" } sampleUsers).1
    { ID := 1, Username := "ann", Password := "bcrypt:pw", Email := "ann@x.org" } (by decide)
  have hrows := hw.2 (by decide)
  ⟨hrows.1, hrows.2.2 (by decide),
   (UpdateUser_keeps_password_and_username sampleUserDeps
    { ID := 9, Username := "eve", Password := "hack", Email := "" } sampleUsers).2.1
    User.zero (by decide)⟩

end Vikunja
